import Mathlib

/-!
Shallow embedding of the ValeoStats bot core (src/bot.py, src/chatter_tracker.py,
src/db_storage.py) and proofs about it.

Modelling conventions:
* Python floats (money amounts, rates, POSIX timestamps) are modelled as `ℚ`.
* Python `str` is `String`; `str.lower()` is `pyLower` (per-character lowering).
* Python dicts that the code treats as ordered key/value stores (JSON objects,
  `context.bot_data`, the chat-mapping dict) are association lists in insertion
  order; assignment replaces in place or appends, matching CPython dict semantics.
* Network fetches are parameters (functions passed to the embedded job/command);
  an `Except Unit` result models success vs a raised `requests` exception.
* JSON values are the inductive `Json`; `json.dump`/`json.load` (the byte-level
  serialisation) is external and is taken as the identity on `Json` values.
-/

/-- Association-list lookup, modelling Python `d[k]` / `d.get(k)` on a dict
held as an insertion-ordered key/value list. -/
def lookupAssoc {α : Type} : List (String × α) → String → Option α
  | [], _ => none
  | (k', v) :: rest, k => if k' = k then some v else lookupAssoc rest k

/-- Association-list assignment, modelling Python `d[k] = v`: replaces the value
in place when the key exists, appends a new entry otherwise. -/
def setAssoc {α : Type} : List (String × α) → String → α → List (String × α)
  | [], k, v => [(k, v)]
  | (k', v') :: rest, k, v =>
    if k' = k then (k, v) :: rest else (k', v') :: setAssoc rest k v

/-- Association-list deletion, modelling Python `del d[k]`. -/
def delAssoc {α : Type} (l : List (String × α)) (k : String) : List (String × α) :=
  l.filter (fun p => p.1 ≠ k)

/-- Python `str.lower()`, modelled as per-character lowering. -/
def pyLower (s : String) : String := ⟨s.data.map Char.toLower⟩

/-- Convert every element, failing as a whole as soon as one element fails
(a Python loop whose body may raise). -/
def mapOption {α β : Type} (f : α → Option β) : List α → Option (List β)
  | [] => some []
  | x :: xs =>
    match f x with
    | none => none
    | some y => (mapOption f xs).map (fun ys => y :: ys)

/-- Convert every element, stopping at the first raised exception
(a Python loop whose body may raise, keeping the exception). -/
def mapExcept {ε α β : Type} (f : α → Except ε β) : List α → Except ε (List β)
  | [] => .ok []
  | x :: xs =>
    match f x with
    | .error e => .error e
    | .ok y => (mapExcept f xs).map (fun ys => y :: ys)

/-! ## Calendar and Europe/Berlin time arithmetic (src/bot.py lines 446–507)

`datetime.date` values are `Date` records.  Aware local datetimes are a `Date`
plus microseconds within the local day; UTC instants are `UtcTime`.  Python's
aware-datetime arithmetic (`start_local + timedelta(days=1)`) is wall-clock
arithmetic, modelled by `nextDay` on the date component.

The `zoneinfo` database is external to the repository.  Europe/Berlin is
modelled from the tzdata EU rule that the zone carries (and that tzdata projects
onto all years): daylight saving (UTC+2) holds from the last Sunday of March
02:00 local wall time until the last Sunday of October 03:00 local wall time;
standard time is UTC+1; both transitions happen at 01:00 UTC.  Only local wall
times outside the transition gap/fold are exercised by the theorems below, so
the model's (arbitrary) choice inside the gap/fold is never relied upon. -/

/-- A calendar date (`datetime.date`). -/
structure Date where
  year : Int
  month : Int
  day : Int
deriving DecidableEq

/-- Gregorian leap-year test. -/
def isLeap (y : Int) : Bool := (y % 4 == 0 && y % 100 != 0) || (y % 400 == 0)

/-- Number of days in month `m` of year `y`. -/
def monthLen (y m : Int) : Int :=
  if m = 2 then (if isLeap y then 29 else 28)
  else if m = 4 ∨ m = 6 ∨ m = 9 ∨ m = 11 then 30
  else 31

/-- A `Date` that `datetime.date` would accept. -/
def ValidDate (d : Date) : Prop :=
  1 ≤ d.month ∧ d.month ≤ 12 ∧ 1 ≤ d.day ∧ d.day ≤ monthLen d.year d.month

instance (d : Date) : Decidable (ValidDate d) := by unfold ValidDate; infer_instance

/-- The next calendar day (`date + timedelta(days=1)`). -/
def nextDay (d : Date) : Date :=
  if d.day < monthLen d.year d.month then ⟨d.year, d.month, d.day + 1⟩
  else if d.month < 12 then ⟨d.year, d.month + 1, 1⟩
  else ⟨d.year + 1, 1, 1⟩

/-- The previous calendar day (`date - timedelta(days=1)`). -/
def prevDay (d : Date) : Date :=
  if 1 < d.day then ⟨d.year, d.month, d.day - 1⟩
  else if 1 < d.month then ⟨d.year, d.month - 1, monthLen d.year (d.month - 1)⟩
  else ⟨d.year - 1, 12, 31⟩

/-- Days since 1970-01-01 of a civil date (standard civil-from-days inverse;
`/` and `%` on `Int` are Euclidean, which is floor division for the positive
divisors used here). -/
def daysFromCivil (y m d : Int) : Int :=
  let y' := if m ≤ 2 then y - 1 else y
  let era := y' / 400
  let yoe := y' - era * 400
  let mp := (m + 9) % 12
  let doy := (153 * mp + 2) / 5 + d - 1
  let doe := yoe * 365 + yoe / 4 - yoe / 100 + doy
  era * 146097 + doe - 719468

/-- Day of week, 0 = Sunday (1970-01-01 was a Thursday). -/
def dowSun (y m d : Int) : Int := (daysFromCivil y m d + 4) % 7

/-- Day-of-month of the last Sunday of a 31-day month `m` of year `y`
(used for March and October, the EU transition months). -/
def lastSundayDay (y m : Int) : Int := 31 - dowSun y m 31

/-- Microseconds in an hour. -/
def hourMicros : Int := 3600000000

/-- Microseconds in a day. -/
def microsPerDay : Int := 86400000000

/-- Whether the Europe/Berlin local wall time `d`, `micros` (µs past local
midnight) falls in daylight-saving time: at or after the last Sunday of March
02:00, and before the last Sunday of October 03:00, of the date's year. -/
def BerlinDstLocal (d : Date) (micros : Int) : Prop :=
  let dM := lastSundayDay d.year 3
  let dO := lastSundayDay d.year 10
  (3 < d.month ∨ (d.month = 3 ∧ (dM < d.day ∨ (d.day = dM ∧ 2 * hourMicros ≤ micros)))) ∧
  (d.month < 10 ∨ (d.month = 10 ∧ (d.day < dO ∨ (d.day = dO ∧ micros < 3 * hourMicros))))

instance (d : Date) (micros : Int) : Decidable (BerlinDstLocal d micros) := by
  unfold BerlinDstLocal; infer_instance

/-- UTC offset (in µs) of a Europe/Berlin local wall time. -/
def berlinOffsetLocal (d : Date) (micros : Int) : Int :=
  if BerlinDstLocal d micros then 2 * hourMicros else hourMicros

/-- A UTC instant: a UTC calendar date plus microseconds past UTC midnight. -/
structure UtcTime where
  date : Date
  micros : Int
deriving DecidableEq

/-- Whether a UTC instant falls in Europe/Berlin daylight-saving time.  Both
EU transitions happen at 01:00 UTC on the respective last Sundays. -/
def BerlinDstUtc (u : UtcTime) : Prop :=
  let dM := lastSundayDay u.date.year 3
  let dO := lastSundayDay u.date.year 10
  (3 < u.date.month ∨ (u.date.month = 3 ∧ (dM < u.date.day ∨ (u.date.day = dM ∧ hourMicros ≤ u.micros)))) ∧
  (u.date.month < 10 ∨ (u.date.month = 10 ∧ (u.date.day < dO ∨ (u.date.day = dO ∧ u.micros < hourMicros))))

instance (u : UtcTime) : Decidable (BerlinDstUtc u) := by
  unfold BerlinDstUtc; infer_instance

/-- UTC offset (in µs) of Europe/Berlin at a UTC instant. -/
def berlinOffsetUtc (u : UtcTime) : Int :=
  if BerlinDstUtc u then 2 * hourMicros else hourMicros

/-- Convert a Europe/Berlin local wall time to UTC
(`datetime.astimezone(timezone.utc)`): subtract the offset determined by the
local wall time, borrowing one day when the result crosses local midnight. -/
def utcOfBerlinLocal (d : Date) (micros : Int) : UtcTime :=
  let off := berlinOffsetLocal d micros
  if micros - off < 0 then ⟨prevDay d, micros - off + microsPerDay⟩
  else ⟨d, micros - off⟩

/-- Convert a UTC instant to a Europe/Berlin local wall time: add the offset
determined by the UTC instant, carrying one day when crossing UTC midnight. -/
def berlinLocalOfUtc (u : UtcTime) : Date × Int :=
  let off := berlinOffsetUtc u
  if u.micros + off < microsPerDay then (u.date, u.micros + off)
  else (nextDay u.date, u.micros + off - microsPerDay)

/-- `OnlyFansCalendar.get_of_day_range` (src/bot.py lines 449–475): the
OnlyFans day of `date` starts at 01:00 Berlin wall time on `date` and ends at
00:59:59.999999 Berlin wall time on the next calendar day (wall-clock
`+ timedelta(days=1) - timedelta(microseconds=1)`), both converted to UTC. -/
def get_of_day_range (date : Date) : UtcTime × UtcTime :=
  (utcOfBerlinLocal date hourMicros, utcOfBerlinLocal (nextDay date) (hourMicros - 1))

/-- `OnlyFansCalendar.get_previous_of_day` (src/bot.py lines 502–507) given
today's Berlin date. -/
def get_previous_of_day (today : Date) : UtcTime × UtcTime :=
  get_of_day_range (prevDay today)

/-- The UTC instant one microsecond later. -/
def succMicro (u : UtcTime) : UtcTime :=
  if u.micros + 1 < microsPerDay then ⟨u.date, u.micros + 1⟩ else ⟨nextDay u.date, 0⟩

/-! ## Data model (src/bot.py lines 65–94) -/

/-- `ModelConfig` dataclass: configuration for a single model. -/
structure ModelConfig where
  platform : String
  platform_account_id : String
  nickname : Option String := none
deriving DecidableEq

/-- `ChatMapping` dataclass: a chat's connection to platform accounts.
Its fields are exactly `models`, `chat_type` and the toggles below — in
particular there is no top-level `platform` or `platform_account_id` field. -/
structure ChatMapping where
  models : List ModelConfig
  chat_type : String := "agency"
  enable_daily_report : Bool := true
  enable_weekly_report : Bool := true
  enable_whale_alerts : Bool := true
  enable_chatter_report : Bool := false
  whale_alert_threshold : Int := 4
deriving DecidableEq

/-- Python attribute access `mapping.platform` on a `ChatMapping` dataclass
(fields listed at src/bot.py lines 73–83): no `platform` attribute exists, so
the access raises `AttributeError`; modelled as `none`. -/
def ChatMapping.attr_platform (_ : ChatMapping) : Option String := none

/-- Python attribute access `mapping.platform_account_id` on a `ChatMapping`
dataclass: no such attribute exists, so the access raises `AttributeError`;
modelled as `none`. -/
def ChatMapping.attr_platform_account_id (_ : ChatMapping) : Option String := none

/-- `RevenueStats` dataclass: revenue statistics for a time period (times kept
as the UTC instants they were computed for). -/
structure RevenueStats where
  total_amount : ℚ
  currency : String
  transaction_count : Int
  start_time : UtcTime
  end_time : UtcTime
  new_subscribers : Option Int := none
  total_subscribers : Option Int := none
deriving DecidableEq

/-! ## JSON values and the flat-file storage backend (src/bot.py lines 102–189)

`StorageManager.load` parses `chat_mapping.json`; any exception during the
parse makes the whole load return the empty mapping set (lines 160–162).  The
embedding works on parsed `Json` values: per-record extraction yields `none`
exactly when the Python code would raise (missing required key) or when the
stored value falls outside the schema types the code round-trips (Python's
dataclasses do not check field types, so such states are outside the modelled
domain).  CPython dicts preserve insertion order, hence association lists. -/

/-- A parsed JSON value. -/
inductive Json where
  | null
  | bool (b : Bool)
  | int (n : Int)
  | str (s : String)
  | arr (items : List Json)
  | obj (entries : List (String × Json))

/-- Extract a JSON string. -/
def Json.asStr : Json → Option String
  | .str s => some s
  | _ => none

/-- Extract a JSON boolean. -/
def Json.asBool : Json → Option Bool
  | .bool b => some b
  | _ => none

/-- Extract a JSON integer. -/
def Json.asInt : Json → Option Int
  | .int n => some n
  | _ => none

/-- Extract a JSON array. -/
def Json.asArr : Json → Option (List Json)
  | .arr items => some items
  | _ => none

/-- Extract a JSON object. -/
def Json.asObj : Json → Option (List (String × Json))
  | .obj entries => some entries
  | _ => none

/-- `model_data.get("nickname")` (src/bot.py line 132): a missing key or a JSON
null is Python `None`; a string is kept. -/
def nicknameFromJson : Option Json → Option (Option String)
  | none => some none
  | some .null => some none
  | some (.str s) => some (some s)
  | _ => none

/-- One entry of a stored `models` list (src/bot.py lines 128–135): the
`platform` and `platform_account_id` keys are accessed with `[]` (an absent key
raises `KeyError`, failing the whole load), `nickname` with `.get`. -/
def modelFromJson (j : Json) : Option ModelConfig := do
  let kvs ← j.asObj
  let p ← (lookupAssoc kvs "platform").bind Json.asStr
  let a ← (lookupAssoc kvs "platform_account_id").bind Json.asStr
  let nick ← nicknameFromJson (lookupAssoc kvs "nickname")
  pure ⟨p, a, nick⟩

/-- `mapping_data.get(k, default)` for a string field. -/
def getStrD (kvs : List (String × Json)) (k : String) (dflt : String) : Option String :=
  match lookupAssoc kvs k with
  | none => some dflt
  | some v => v.asStr

/-- `mapping_data.get(k, default)` for a boolean field. -/
def getBoolD (kvs : List (String × Json)) (k : String) (dflt : Bool) : Option Bool :=
  match lookupAssoc kvs k with
  | none => some dflt
  | some v => v.asBool

/-- `mapping_data.get(k, default)` for an integer field. -/
def getIntD (kvs : List (String × Json)) (k : String) (dflt : Int) : Option Int :=
  match lookupAssoc kvs k with
  | none => some dflt
  | some v => v.asInt

/-- The in-place default block of `StorageManager.load` (src/bot.py lines
137–144), applied to records without a `chat_type` key: it assigns (and so
overwrites) `chat_type` and every toggle and the threshold. -/
def defaultsTower (kvs : List (String × Json)) : List (String × Json) :=
  setAssoc (setAssoc (setAssoc (setAssoc (setAssoc (setAssoc kvs
    "chat_type" (.str "agency"))
    "enable_daily_report" (.bool true))
    "enable_weekly_report" (.bool true))
    "enable_whale_alerts" (.bool true))
    "enable_chatter_report" (.bool false))
    "whale_alert_threshold" (.int 4)

/-- One record of `StorageManager.load` (src/bot.py lines 117–158): the legacy
branch when top-level `platform` and `platform_account_id` keys are present;
otherwise the `models` list (defaulting to empty); then the in-place default
block for records without `chat_type` (which overwrites all toggle fields), the
`enable_chatter_report` backfill, and the final field reads with defaults. -/
def loadOne (j : Json) : Option ChatMapping := do
  let kvs ← j.asObj
  let models ←
    if (lookupAssoc kvs "platform").isSome && (lookupAssoc kvs "platform_account_id").isSome then do
      let p ← (lookupAssoc kvs "platform").bind Json.asStr
      let a ← (lookupAssoc kvs "platform_account_id").bind Json.asStr
      pure [ModelConfig.mk p a none]
    else do
      let marr ← (match lookupAssoc kvs "models" with
        | none => Json.arr []
        | some v => v).asArr
      mapOption modelFromJson marr
  let kvs := if (lookupAssoc kvs "chat_type").isNone then defaultsTower kvs else kvs
  let kvs := if (lookupAssoc kvs "enable_chatter_report").isNone then
      setAssoc kvs "enable_chatter_report" (.bool false)
    else kvs
  let ct ← getStrD kvs "chat_type" "agency"
  let ed ← getBoolD kvs "enable_daily_report" true
  let ew ← getBoolD kvs "enable_weekly_report" true
  let ewh ← getBoolD kvs "enable_whale_alerts" true
  let ec ← getBoolD kvs "enable_chatter_report" false
  let th ← getIntD kvs "whale_alert_threshold" 4
  pure ⟨models, ct, ed, ew, ewh, ec, th⟩

/-- `StorageManager.load` on the parsed top-level object: every record is
converted in file order; any per-record failure (a raised exception in the
Python code) makes the whole load return the empty mapping set. -/
def StorageManager.load (data : List (String × Json)) : List (String × ChatMapping) :=
  match mapOption (fun p => (loadOne p.2).map (fun m => (p.1, m))) data with
  | some mappings => mappings
  | none => []

/-- `StorageManager.load` including its effect on the stored file: the method
only opens the file for reading (src/bot.py line 114), so the file state is
returned unchanged; a missing file (`none`) loads as the empty set. -/
def StorageManager.loadFromFile (file : Option (List (String × Json))) :
    Option (List (String × Json)) × List (String × ChatMapping) :=
  (file, match file with
    | none => []
    | some data => StorageManager.load data)

/-- Serialisation of one `ModelConfig` (src/bot.py lines 170–174). -/
def modelToJson (m : ModelConfig) : Json :=
  .obj [("platform", .str m.platform),
        ("platform_account_id", .str m.platform_account_id),
        ("nickname", match m.nickname with | some s => .str s | none => .null)]

/-- Serialisation of one `ChatMapping` (src/bot.py lines 168–183). -/
def mappingToJson (m : ChatMapping) : Json :=
  .obj [("models", .arr (m.models.map modelToJson)),
        ("chat_type", .str m.chat_type),
        ("enable_daily_report", .bool m.enable_daily_report),
        ("enable_weekly_report", .bool m.enable_weekly_report),
        ("enable_whale_alerts", .bool m.enable_whale_alerts),
        ("enable_chatter_report", .bool m.enable_chatter_report),
        ("whale_alert_threshold", .int m.whale_alert_threshold)]

/-- `StorageManager.save` (src/bot.py lines 164–189): the file is opened with
mode `"w"`, so its new content is exactly the serialisation of the given
mapping set, in iteration order. -/
def StorageManager.save (mappings : List (String × ChatMapping)) : List (String × Json) :=
  mappings.map (fun p => (p.1, mappingToJson p.2))

/-! ## Relational storage backend (src/db_storage.py, src/bot.py lines 199–258)

The database is modelled as an association list from `chat_id` (the primary key
of `chat_mappings`) to the stored record: the parent row's columns plus the
child `chat_models` rows in `ORDER BY id` order.  `save_mapping` upserts the
parent row and replaces the child rows (delete-then-reinsert, lines 110–124 of
db_storage.py), which on this model is replacement of the whole record;
`delete_mapping` deletes the parent row, and `ON DELETE CASCADE` removes the
children with it. -/

/-- One child row of `chat_models`. -/
structure DbModelRow where
  platform : String
  platform_account_id : String
  nickname : Option String
deriving DecidableEq

/-- The durable state for one chat: parent-row columns plus child rows. -/
structure DbMappingRecord where
  chat_type : String
  enable_daily_report : Bool
  enable_weekly_report : Bool
  enable_monthly_report : Bool
  enable_whale_alerts : Bool
  enable_chatter_report : Bool
  whale_alert_threshold : Int
  models : List DbModelRow
deriving DecidableEq

/-- `DatabaseStorage.save_mapping`: upsert of the record under its key. -/
def save_mapping (db : List (String × DbMappingRecord)) (chat_id : String)
    (record : DbMappingRecord) : List (String × DbMappingRecord) :=
  setAssoc db chat_id record

/-- `DatabaseStorage.delete_mapping`: delete the row with this primary key
(children removed by the cascade). -/
def delete_mapping (db : List (String × DbMappingRecord)) (chat_id : String) :
    List (String × DbMappingRecord) :=
  delAssoc db chat_id

/-- `DatabaseStorage.load_all_mappings`: every stored chat's record. -/
def load_all_mappings (db : List (String × DbMappingRecord)) :
    List (String × DbMappingRecord) :=
  db

/-- The dict built from a `ChatMapping` by `DatabaseStorageWrapper.save`
(src/bot.py lines 242–257); it carries no `enable_monthly_report` key, so
`save_mapping` stores that column's default `True`. -/
def recordOfMapping (m : ChatMapping) : DbMappingRecord :=
  ⟨m.chat_type, m.enable_daily_report, m.enable_weekly_report, true,
   m.enable_whale_alerts, m.enable_chatter_report, m.whale_alert_threshold,
   m.models.map (fun mc => ⟨mc.platform, mc.platform_account_id, mc.nickname⟩)⟩

/-- The `ChatMapping` rebuilt from a stored record by
`DatabaseStorageWrapper.load` (src/bot.py lines 204–223). -/
def mappingOfRecord (r : DbMappingRecord) : ChatMapping :=
  ⟨r.models.map (fun m => ⟨m.platform, m.platform_account_id, m.nickname⟩),
   r.chat_type, r.enable_daily_report, r.enable_weekly_report,
   r.enable_whale_alerts, r.enable_chatter_report, r.whale_alert_threshold⟩

/-- `DatabaseStorageWrapper.load` (src/bot.py lines 200–224). -/
def DatabaseStorageWrapper.load (db : List (String × DbMappingRecord)) :
    List (String × ChatMapping) :=
  (load_all_mappings db).map (fun p => (p.1, mappingOfRecord p.2))

/-- `DatabaseStorageWrapper.save` (src/bot.py lines 226–258): read existing
chat ids, delete those absent from the given set, then save or update every
given mapping. -/
def DatabaseStorageWrapper.save (db : List (String × DbMappingRecord))
    (mappings : List (String × ChatMapping)) : List (String × DbMappingRecord) :=
  let existing := (load_all_mappings db).map Prod.fst
  let newIds := mappings.map Prod.fst
  let deleted := existing.filter (fun cid => cid ∉ newIds)
  let db1 := deleted.foldl delete_mapping db
  mappings.foldl (fun d p => save_mapping d p.1 (recordOfMapping p.2)) db1

/-! ## Revenue calculation (src/bot.py lines 369–435) -/

/-- The `amount` field of one returned transaction item, as seen by
`calculate_revenue`: absent (or JSON null, both Python `None`), a numeric value,
a string `float()` can parse (modelled by its parsed value), or a value
`float()` rejects with `TypeError`/`ValueError`. -/
inductive AmountField where
  | missing
  | num (q : ℚ)
  | numStr (q : ℚ)
  | bad
deriving DecidableEq

/-- The amount a transaction item contributes, if any: `float(amount)` on a
numeric or parsable-string amount; `none` when the item is skipped (absent
amount, or a `float()` failure logged and `continue`d, lines 396–402). -/
def parseAmount : AmountField → Option ℚ
  | .missing => none
  | .num q => some q
  | .numStr q => some q
  | .bad => none

/-- One transaction item (only the fields `calculate_revenue` reads). -/
structure Transaction where
  amount : AmountField
  currency : Option String
deriving DecidableEq

/-- The summation loop of `calculate_revenue` (src/bot.py lines 392–402):
items whose amount is absent or unparsable contribute nothing. -/
def sumAmounts (items : List Transaction) : ℚ :=
  items.foldl (fun acc t => match parseAmount t.amount with
    | some q => acc + q
    | none => acc) 0

/-- The currency loop of `calculate_revenue` (src/bot.py lines 404–406): while
the running currency is still the `"USD"` default, a transaction carrying a
`currency` key overwrites it. -/
def pickCurrency (items : List Transaction) : String :=
  items.foldl (fun c t =>
    if c = "USD" then (match t.currency with | some cur => cur | none => c) else c) "USD"

/-- `OnlyMonsterClient.calculate_revenue` on a successfully fetched
transactions response (`items`), with the independently fetched subscriber data
passed in (`subs`; `none` models a failed/empty subscriber fetch).  The
returned total is net revenue: the summed amounts times 0.80 (line 421). -/
def calculate_revenue (items : List Transaction) (start_time end_time : UtcTime)
    (subs : Option (Option Int × Option Int)) : RevenueStats :=
  { total_amount := sumAmounts items * (80 / 100),
    currency := pickCurrency items,
    transaction_count := items.length,
    start_time := start_time,
    end_time := end_time,
    new_subscribers := (subs.map Prod.fst).getD none,
    total_subscribers := (subs.map Prod.snd).getD none }

/-! ## Link / unlink command handlers (src/bot.py lines 587–831) -/

/-- The reply `cmd_link` sends, by branch. -/
inductive LinkReply where
  | usage
  | unsupportedPlatform
  | alreadyLinked
  | addedModel
  | createdMapping
deriving DecidableEq

/-- Platforms accepted by `cmd_link` (src/bot.py line 629). -/
def SUPPORTED_PLATFORMS : List String := ["onlyfans", "fansly"]

/-- Argument parsing of `cmd_link` (src/bot.py lines 591–626): at least two
arguments; the platform is lowered; a third argument equal to `agency` or
`chatter` (after lowering) is the chat type and any further arguments join into
a nickname, otherwise arguments three onward join into the nickname. -/
def parse_link_args (args : List String) :
    Option (String × String × Option String × Option String) :=
  match args with
  | platformArg :: accountArg :: rest =>
    let platform := pyLower platformArg
    let ctAndNick : Option String × Option String :=
      match rest with
      | [] => (none, none)
      | arg3 :: rest4 =>
        if pyLower arg3 = "agency" ∨ pyLower arg3 = "chatter" then
          (some (pyLower arg3),
           if rest4 = [] then none else some (" ".intercalate rest4))
        else (none, some (" ".intercalate (arg3 :: rest4)))
    some (platform, accountArg, ctAndNick.1, ctAndNick.2)
  | _ => none

/-- `cmd_link` (src/bot.py lines 587–732) as a transition on the mapping set:
reject on bad usage or unsupported platform; for a chat with an existing
mapping, reject when a model with the same `(platform, platform_account_id)` is
already linked to this chat, else append the model; for a new chat, create a
mapping whose toggles follow the chat type (default `agency`). -/
def cmd_link (mappings : List (String × ChatMapping)) (chat_id : String)
    (args : List String) : LinkReply × List (String × ChatMapping) :=
  match parse_link_args args with
  | none => (.usage, mappings)
  | some (platform, account_id, chat_type, nickname) =>
    if platform ∉ SUPPORTED_PLATFORMS then (.unsupportedPlatform, mappings)
    else
      match lookupAssoc mappings chat_id with
      | some existing =>
        if existing.models.any (fun m =>
            decide (m.platform = platform ∧ m.platform_account_id = account_id)) then
          (.alreadyLinked, mappings)
        else
          (.addedModel, setAssoc mappings chat_id
            { existing with models := existing.models ++ [⟨platform, account_id, nickname⟩] })
      | none =>
        let ct := chat_type.getD "agency"
        let enable_daily := ct = "agency"
        let enable_weekly := ct = "agency"
        let enable_whale := ct = "chatter"
        (.createdMapping, setAssoc mappings chat_id
          ⟨[⟨platform, account_id, nickname⟩], ct,
           enable_daily, enable_weekly, enable_whale, false, 4⟩)

/-- The reply `cmd_unlink` sends, by branch. -/
inductive UnlinkReply where
  | notLinked
  | usage
  | removedAll
  | notFound
  | removedLast
  | removedModel
deriving DecidableEq

/-- Whether a model matches the (lowered) identifier given to `/unlink` or
`/today`: by account id or by nickname, case-insensitively
(src/bot.py lines 782–784). -/
def modelMatches (ident : String) (m : ModelConfig) : Bool :=
  pyLower m.platform_account_id = ident ||
    (match m.nickname with | some n => pyLower n = ident | none => false)

/-- `cmd_unlink` (src/bot.py lines 735–831) as a transition on the mapping set:
no mapping or no arguments replies without change; `all` deletes the chat's
mapping; otherwise the first matching model is removed (`list.remove` removes
the first equal element, and the found model is the first match), deleting the
whole mapping when it was the last model. -/
def cmd_unlink (mappings : List (String × ChatMapping)) (chat_id : String)
    (args : List String) : UnlinkReply × List (String × ChatMapping) :=
  match lookupAssoc mappings chat_id with
  | none => (.notLinked, mappings)
  | some mapping =>
    match args with
    | [] => (.usage, mappings)
    | _ :: _ =>
      let ident := pyLower (" ".intercalate args)
      if ident = "all" then (.removedAll, delAssoc mappings chat_id)
      else
        match mapping.models.find? (modelMatches ident) with
        | none => (.notFound, mappings)
        | some target =>
          let remaining := mapping.models.eraseP (fun m => m == target)
          if remaining = [] then (.removedLast, delAssoc mappings chat_id)
          else (.removedModel, setAssoc mappings chat_id { mapping with models := remaining })

/-! ## The `/today` command (src/bot.py lines 835–944) -/

/-- The reply `cmd_today` sends after the model-selection step. -/
inductive TodayReply where
  | single (model : ModelConfig) (stats : RevenueStats)
  | combined (total_revenue : ℚ) (total_subs : Int)
      (breakdown : List (ModelConfig × RevenueStats))
  | fetchError
deriving DecidableEq

/-- The fetch loop of `cmd_today` (src/bot.py lines 887–895): sequential
per-model `calculate_revenue` calls inside one `try`; the first raised
exception aborts the loop. -/
def fetch_all_stats (models : List ModelConfig)
    (calcRev : ModelConfig → Except Unit RevenueStats) :
    Except Unit (List (ModelConfig × RevenueStats)) :=
  mapExcept (fun m => (calcRev m).map (fun s => (m, s))) models

/-- The reporting part of `cmd_today` (src/bot.py lines 883–944), given the
models to show and the fetch function for the current-day window: one model
formats a single report; several format a combined total (sum of amounts, sum
of `new_subscribers or 0`) plus the per-model breakdown; any exception in the
fetch loop is caught by the single surrounding handler, which sends an error
message instead. -/
def cmd_today_report (models_to_show : List ModelConfig)
    (calcRev : ModelConfig → Except Unit RevenueStats) : TodayReply :=
  match fetch_all_stats models_to_show calcRev with
  | .error _ => .fetchError
  | .ok all_stats =>
    match all_stats with
    | [single] => .single single.1 single.2
    | _ =>
      .combined ((all_stats.map (fun p => p.2.total_amount)).sum)
        ((all_stats.map (fun p => (p.2.new_subscribers).getD 0)).sum)
        all_stats

/-! ## Daily report job (src/bot.py lines 1238–1283) -/

/-- `daily_report_job` given today's Berlin date, the mapping set the job
loads, and the revenue fetch (platform → account id → window → result).  Every
enabled chat is processed in one pass; the per-chat `try` swallows any
exception, including the `AttributeError` raised by `mapping.platform`.
Returns the `(chat_id, stats)` report messages actually sent. -/
def daily_report_job (today : Date) (mappings : List (String × ChatMapping))
    (calcRev : String → String → UtcTime → UtcTime → Except Unit RevenueStats) :
    List (String × RevenueStats) :=
  let range := get_previous_of_day today
  mappings.foldl (fun sent p =>
    if p.2.enable_daily_report then
      match p.2.attr_platform, p.2.attr_platform_account_id with
      | some plat, some acct =>
        match calcRev plat acct range.1 range.2 with
        | .ok stats => sent ++ [(p.1, stats)]
        | .error _ => sent
      | _, _ => sent
    else sent) []

/-! ## Whale alert deduplication (src/bot.py lines 1458–1528)

`whale_alert_job` polls every five minutes; its per-chat body fetches the
online fans and runs the loop below.  (In the current source the per-chat body
aborts before the fetch because `mapping.platform` does not exist on
`ChatMapping` — see `ChatMapping.attr_platform`; the loop itself, embedded
here over a fetched fans list, carries the deduplication logic.) -/

/-- One online fan as read from the poll response (fields read with `.get`
defaults at src/bot.py lines 1492–1495). -/
structure Fan where
  username : String
  id : String
  buying_power : Int
  last_purchase_amount : ℚ
deriving DecidableEq

/-- The `bot_data` key for a `(chat, fan)` pair (src/bot.py line 1501). -/
def alert_key (chat_id fan_id : String) : String :=
  "whale_" ++ chat_id ++ "_" ++ fan_id

/-- The fan loop of `whale_alert_job` (src/bot.py lines 1491–1525) for one
chat: a fan qualifies when `buying_power >= whale_alert_threshold`; a
qualifying fan is alerted only when more than 1800 seconds have passed since
the stored last-alert time (`.get(alert_key, 0)` when never alerted), and only
then is the stored time updated.  Returns the alerted fans in order and the
updated `bot_data`. -/
def whale_check_fans (chat_id : String) (threshold : Int) (fans : List Fan)
    (bot_data : List (String × ℚ)) (now : ℚ) : List Fan × List (String × ℚ) :=
  fans.foldl (fun st fan =>
    if threshold ≤ fan.buying_power then
      let key := alert_key chat_id fan.id
      let last := (lookupAssoc st.2 key).getD 0
      if 1800 < now - last then (st.1 ++ [fan], setAssoc st.2 key now)
      else st
    else st) ([], bot_data)

/-! ## Chatter performance (src/chatter_tracker.py, src/bot.py lines 1342–1455) -/

/-- `ChatterStats` dataclass (src/chatter_tracker.py lines 30–39). -/
structure ChatterStats where
  chatter_name : String
  total_sales : ℚ
  avg_response_time_seconds : ℚ
  ppv_conversion_rate : ℚ
  total_messages : Int
  template_messages : Int
  manual_messages : Int
deriving DecidableEq

/-- Minimum messages required to appear in a report
(src/chatter_tracker.py line 27). -/
def MIN_MESSAGES_THRESHOLD : Int := 50

/-- Descending-by-sales comparison used for the stable sorts
(`sort(key=..., reverse=True)`): `a` may precede `b` when its sales are at
least `b`'s.  CPython's sort is stable, as is `List.mergeSort`, and a stable
sort's output is determined by the comparison, so `mergeSort` with this
comparison is the model of the Python sort. -/
def salesDescLe (a b : ChatterStats) : Bool := b.total_sales ≤ a.total_sales

/-- `ChatterPerformanceClient.get_chatter_performance` after response parsing
(src/chatter_tracker.py lines 120–139): keep only chatters with at least
`MIN_MESSAGES_THRESHOLD` total messages, then sort by total sales, highest
first. -/
def get_chatter_performance (parsed : List ChatterStats) : List ChatterStats :=
  (parsed.filter (fun s => MIN_MESSAGES_THRESHOLD ≤ s.total_messages)).mergeSort salesDescLe

/-- The per-name accumulator of `chatter_report_job`
(src/bot.py lines 1404–1411). -/
structure CombinedEntry where
  total_sales : ℚ
  total_messages : Int
  template_messages : Int
  manual_messages : Int
  response_times : List ℚ
  conversions : List ℚ
deriving DecidableEq

/-- The all-zero accumulator entry the `defaultdict` starts from. -/
def emptyEntry : CombinedEntry := ⟨0, 0, 0, 0, [], []⟩

/-- One accumulation step (src/bot.py lines 1413–1420): add the sales and
message counts, append the response time and conversion rate. -/
def addStats (e : CombinedEntry) (s : ChatterStats) : CombinedEntry :=
  ⟨e.total_sales + s.total_sales, e.total_messages + s.total_messages,
   e.template_messages + s.template_messages, e.manual_messages + s.manual_messages,
   e.response_times ++ [s.avg_response_time_seconds],
   e.conversions ++ [s.ppv_conversion_rate]⟩

/-- `combined_chatters[stats.chatter_name]` update on the insertion-ordered
`defaultdict`: update the existing entry in place, or append a fresh one. -/
def updateAssocChatter (acc : List (String × CombinedEntry)) (s : ChatterStats) :
    List (String × CombinedEntry) :=
  match acc with
  | [] => [(s.chatter_name, addStats emptyEntry s)]
  | (n, e) :: rest =>
    if n = s.chatter_name then (n, addStats e s) :: rest
    else (n, e) :: updateAssocChatter rest s

/-- The grouping loop of `chatter_report_job` (src/bot.py lines 1403–1420). -/
def combineChatters (l : List ChatterStats) : List (String × CombinedEntry) :=
  l.foldl updateAssocChatter []

/-- Conversion of an accumulator entry back to a `ChatterStats`
(src/bot.py lines 1425–1437): response time and conversion rate are the simple
arithmetic mean of the collected per-record values. -/
def finalizeEntry (n : String) (e : CombinedEntry) : ChatterStats :=
  ⟨n, e.total_sales,
   e.response_times.sum / e.response_times.length,
   e.conversions.sum / e.conversions.length,
   e.total_messages, e.template_messages, e.manual_messages⟩

/-- The cross-account merge of `chatter_report_job`
(src/bot.py lines 1403–1440): group by chatter name, finalize each entry in
first-encounter order, then stable-sort by total sales, highest first. -/
def merge_chatter_stats (l : List ChatterStats) : List ChatterStats :=
  ((combineChatters l).map (fun p => finalizeEntry p.1 p.2)).mergeSort salesDescLe

/-- The chatter pipeline of `chatter_report_job` for one chat
(src/bot.py lines 1373–1440): each successfully fetched account's raw chatters
go through the per-account filter-and-sort of `get_chatter_performance`, the
results are concatenated (`all_chatter_stats.extend`), and the concatenation is
merged. -/
def chatter_report_pipeline (perAccount : List (List ChatterStats)) : List ChatterStats :=
  merge_chatter_stats ((perAccount.map get_chatter_performance).flatten)

/-- The distinct elements of a list in first-encounter order (used to state in
which order the `defaultdict` holds its keys). -/
def firstOccurs (l : List String) : List String :=
  l.foldl (fun acc n => if n ∈ acc then acc else acc ++ [n]) []

/-- Fold form of the accumulation of one name's records. -/
def buildEntry (l : List ChatterStats) : CombinedEntry :=
  l.foldl addStats emptyEntry

/-! ## Spec-side definition for the nickname claim

The claim (and spec §3) states nicknames are a case-insensitive alternate key,
unique per chat among nicknames and account ids.  This predicate is written
from those words, to be compared with what `cmd_link`/`cmd_unlink` enforce. -/

/-- Whether two models' identifiers clash in the sense of the spec's uniqueness
wording: nickname against nickname, or nickname against account id, compared
case-insensitively. -/
def nickClash (a b : ModelConfig) : Bool :=
  (match a.nickname, b.nickname with
   | some x, some y => pyLower x == pyLower y
   | _, _ => false) ||
  (match a.nickname with
   | some x => pyLower x == pyLower b.platform_account_id
   | none => false) ||
  (match b.nickname with
   | some y => pyLower y == pyLower a.platform_account_id
   | none => false)

/-- Spec-side invariant: within one chat, no two model entries' nicknames
clash case-insensitively with each other's nicknames or account ids. -/
def nicknameUniqueSpec (m : ChatMapping) : Prop :=
  m.models.Pairwise (fun a b => nickClash a b = false)

instance (m : ChatMapping) : Decidable (nicknameUniqueSpec m) := by
  unfold nicknameUniqueSpec; infer_instance

/-- Code-side invariant actually maintained per chat: no two model entries
share `(platform, platform_account_id)`. -/
def modelKeysOk (m : ChatMapping) : Prop :=
  m.models.Pairwise (fun a b =>
    ¬(a.platform = b.platform ∧ a.platform_account_id = b.platform_account_id))

instance (m : ChatMapping) : Decidable (modelKeysOk m) := by
  unfold modelKeysOk; infer_instance

/-- The per-chat key invariant over the whole mapping set. -/
def RegistryModelKeysOk (mappings : List (String × ChatMapping)) : Prop :=
  ∀ p ∈ mappings, modelKeysOk p.2

instance (mappings : List (String × ChatMapping)) : Decidable (RegistryModelKeysOk mappings) := by
  unfold RegistryModelKeysOk; exact List.decidableBAll _ _


/-! ## Helper lemmas -/

theorem lookupAssoc_setAssoc_self {α : Type} (l : List (String × α)) (k : String) (v : α) :
    lookupAssoc (setAssoc l k v) k = some v := by
  induction l with
  | nil => simp [setAssoc, lookupAssoc]
  | cons hd tl ih =>
    rcases hd with ⟨k0, v0⟩
    by_cases h : k0 = k
    · subst h; simp [setAssoc, lookupAssoc]
    · simp [setAssoc, lookupAssoc, h, ih]

theorem lookupAssoc_setAssoc_ne {α : Type} (l : List (String × α)) {k k' : String} (v : α)
    (h : k' ≠ k) : lookupAssoc (setAssoc l k v) k' = lookupAssoc l k' := by
  induction l with
  | nil => simp [setAssoc, lookupAssoc, Ne.symm h]
  | cons hd tl ih =>
    rcases hd with ⟨k0, v0⟩
    by_cases hk : k0 = k
    · subst hk; simp [setAssoc, lookupAssoc, Ne.symm h]
    · by_cases hk' : k0 = k'
      · subst hk'; simp [setAssoc, lookupAssoc, hk]
      · simp [setAssoc, lookupAssoc, hk, hk', ih]

theorem mem_setAssoc {α : Type} (l : List (String × α)) (k : String) (v : α) (p : String × α) :
    p ∈ setAssoc l k v → p = (k, v) ∨ p ∈ l := by
  induction l with
  | nil => intro h; simpa [setAssoc] using h
  | cons hd tl ih =>
    rcases hd with ⟨k0, v0⟩
    intro h
    by_cases hk : k0 = k
    · subst hk
      simp only [setAssoc, if_true, eq_self_iff_true, List.mem_cons] at h
      rcases h with h | h
      · exact Or.inl h
      · exact Or.inr (List.mem_cons_of_mem _ h)
    · simp only [setAssoc, hk, if_false, List.mem_cons] at h
      rcases h with h | h
      · exact Or.inr (h ▸ List.mem_cons_self _ _)
      · rcases ih h with h' | h'
        · exact Or.inl h'
        · exact Or.inr (List.mem_cons_of_mem _ h')

theorem mem_keys_setAssoc {α : Type} (l : List (String × α)) (k k' : String) (v : α) :
    k' ∈ (setAssoc l k v).map Prod.fst → k' = k ∨ k' ∈ l.map Prod.fst := by
  intro h
  rcases List.mem_map.mp h with ⟨p, hp, hfst⟩
  rcases mem_setAssoc l k v p hp with h' | h'
  · exact Or.inl (by rw [← hfst, h'])
  · exact Or.inr (List.mem_map.mpr ⟨p, h', hfst⟩)

/-! ## Storage round trip -/

theorem modelFromJson_modelToJson (m : ModelConfig) :
    modelFromJson (modelToJson m) = some m := by
  rcases m with ⟨p, a, nick⟩
  cases nick <;>
    simp [modelFromJson, modelToJson, lookupAssoc, Json.asObj, Json.asStr,
      nicknameFromJson, Option.bind]

theorem mapOption_modelFromJson (models : List ModelConfig) :
    mapOption modelFromJson (models.map modelToJson) = some models := by
  induction models with
  | nil => rfl
  | cons hd tl ih => simp [mapOption, modelFromJson_modelToJson, ih]

theorem loadOne_mappingToJson (m : ChatMapping) : loadOne (mappingToJson m) = some m := by
  rcases m with ⟨models, ct, ed, ew, ewh, ec, th⟩
  simp [loadOne, mappingToJson, lookupAssoc, Json.asObj, Json.asArr, Json.asStr,
    Json.asBool, Json.asInt, mapOption_modelFromJson, getStrD, getBoolD, getIntD, Option.bind]

theorem mapOption_load_save (mappings : List (String × ChatMapping)) :
    mapOption (fun p => (loadOne p.2).map (fun m => (p.1, m))) (StorageManager.save mappings)
      = some mappings := by
  induction mappings with
  | nil => rfl
  | cons hd tl ih =>
    have ih' : mapOption (fun p => (loadOne p.2).map (fun m => (p.1, m)))
        (tl.map (fun p => (p.1, mappingToJson p.2))) = some tl := ih
    simp [StorageManager.save, mapOption, loadOne_mappingToJson, ih']

theorem load_save_id (mappings : List (String × ChatMapping)) :
    StorageManager.load (StorageManager.save mappings) = mappings := by
  simp [StorageManager.load, mapOption_load_save]

/-- C5: for every mapping set `M` (in particular every set obtained from
`load()` of the flat-file backend), `save(M)` followed by `load()` yields a
mapping set equal field-for-field to `M`: the save-then-load round trip is the
identity. -/
theorem flat_file_round_trip (mappings : List (String × ChatMapping)) :
    StorageManager.load (StorageManager.save mappings) = mappings :=
  load_save_id mappings

/-! ## Full-replace semantics of save -/

theorem keys_foldl_delete (ds : List String) (db : List (String × DbMappingRecord))
    (k : String) :
    k ∈ (ds.foldl delete_mapping db).map Prod.fst → k ∈ db.map Prod.fst ∧ k ∉ ds := by
  induction ds generalizing db with
  | nil => intro h; exact ⟨h, by simp⟩
  | cons d rest ih =>
    intro h
    rcases ih (delete_mapping db d) h with ⟨hmem, hnot⟩
    rcases List.mem_map.mp hmem with ⟨p, hp, hfst⟩
    have hpd : p.1 ≠ d := by
      have := List.mem_filter.mp hp
      simpa [delAssoc] using this.2
    refine ⟨List.mem_map.mpr ⟨p, (List.mem_filter.mp hp).1, hfst⟩, ?_⟩
    intro hmem'
    rcases List.mem_cons.mp hmem' with h' | h'
    · exact hpd (hfst ▸ h')
    · exact hnot h'

theorem keys_foldl_save (ms : List (String × ChatMapping))
    (db : List (String × DbMappingRecord)) (k : String)
    (hdb : k ∉ db.map Prod.fst) (hms : k ∉ ms.map Prod.fst) :
    k ∉ (ms.foldl (fun d p => save_mapping d p.1 (recordOfMapping p.2)) db).map Prod.fst := by
  induction ms generalizing db with
  | nil => exact hdb
  | cons hd tl ih =>
    have hk : k ≠ hd.1 := by
      intro h
      exact hms (by simp [h])
    have htl : k ∉ tl.map Prod.fst := by
      intro h
      exact hms (List.mem_cons_of_mem _ h)
    refine ih (setAssoc db hd.1 (recordOfMapping hd.2)) ?_ htl
    intro h
    rcases mem_keys_setAssoc _ _ _ _ h with h' | h'
    · exact hk h'
    · exact hdb h'

/-- C6: for every prior durable state and every mapping set `S` passed to
save, any `chat_id` present in the prior durable state but absent from `S` is
absent from a subsequent load — full-replace semantics with explicit
diff-and-delete — for both the flat-file and the relational backend.  (For the
flat file the prior content is irrelevant because mode `"w"` truncates it; for
the database the wrapper deletes the diff and then upserts.) -/
theorem saveAll_full_replace (prior : List (String × DbMappingRecord))
    (S : List (String × ChatMapping)) (chat_id : String)
    (habsent : chat_id ∉ S.map Prod.fst) :
    chat_id ∉ (StorageManager.load (StorageManager.save S)).map Prod.fst ∧
    chat_id ∉ (DatabaseStorageWrapper.load (DatabaseStorageWrapper.save prior S)).map Prod.fst := by
  constructor
  · rw [load_save_id]; exact habsent
  · intro h
    have h' : chat_id ∈ (DatabaseStorageWrapper.save prior S).map Prod.fst := by
      simpa [DatabaseStorageWrapper.load, load_all_mappings, List.map_map,
        Function.comp] using h
    revert h'
    unfold DatabaseStorageWrapper.save
    refine keys_foldl_save S _ chat_id ?_ habsent
    intro hmem
    rcases keys_foldl_delete _ _ _ hmem with ⟨hmem', hnotdel⟩
    have : chat_id ∈ (load_all_mappings prior).map Prod.fst := by
      simpa [load_all_mappings] using hmem'
    exact hnotdel (by
      simp only [List.mem_filter]
      exact ⟨this, by simpa using habsent⟩)

/-- C6 witness: a concrete prior database state and mapping set. -/
theorem saveAll_full_replace_witness :
    ("gone" ∉ ([("kept", ChatMapping.mk [ModelConfig.mk "onlyfans" "1" none] "agency" true true false false 4)].map Prod.fst)) ∧
    "gone" ∉ (StorageManager.load (StorageManager.save [("kept", ChatMapping.mk [ModelConfig.mk "onlyfans" "1" none] "agency" true true false false 4)])).map Prod.fst ∧
    "gone" ∉ (DatabaseStorageWrapper.load (DatabaseStorageWrapper.save
        [("gone", recordOfMapping (ChatMapping.mk [] "agency" true true false false 4))]
        [("kept", ChatMapping.mk [ModelConfig.mk "onlyfans" "1" none] "agency" true true false false 4)])).map Prod.fst := by
  refine ⟨by decide, ?_⟩
  have h := saveAll_full_replace
    [("gone", recordOfMapping (ChatMapping.mk [] "agency" true true false false 4))]
    [("kept", ChatMapping.mk [ModelConfig.mk "onlyfans" "1" none] "agency" true true false false 4)]
    "gone" (by decide)
  exact ⟨h.1, h.2⟩


theorem defaultsTower_chat_type (kvs : List (String × Json)) :
    lookupAssoc (defaultsTower kvs) "chat_type" = some (.str "agency") := by
  unfold defaultsTower
  rw [lookupAssoc_setAssoc_ne _ _ (show "chat_type" ≠ "whale_alert_threshold" by decide),
    lookupAssoc_setAssoc_ne _ _ (show "chat_type" ≠ "enable_chatter_report" by decide),
    lookupAssoc_setAssoc_ne _ _ (show "chat_type" ≠ "enable_whale_alerts" by decide),
    lookupAssoc_setAssoc_ne _ _ (show "chat_type" ≠ "enable_weekly_report" by decide),
    lookupAssoc_setAssoc_ne _ _ (show "chat_type" ≠ "enable_daily_report" by decide),
    lookupAssoc_setAssoc_self]

theorem defaultsTower_daily (kvs : List (String × Json)) :
    lookupAssoc (defaultsTower kvs) "enable_daily_report" = some (.bool true) := by
  unfold defaultsTower
  rw [lookupAssoc_setAssoc_ne _ _ (show "enable_daily_report" ≠ "whale_alert_threshold" by decide),
    lookupAssoc_setAssoc_ne _ _ (show "enable_daily_report" ≠ "enable_chatter_report" by decide),
    lookupAssoc_setAssoc_ne _ _ (show "enable_daily_report" ≠ "enable_whale_alerts" by decide),
    lookupAssoc_setAssoc_ne _ _ (show "enable_daily_report" ≠ "enable_weekly_report" by decide),
    lookupAssoc_setAssoc_self]

theorem defaultsTower_weekly (kvs : List (String × Json)) :
    lookupAssoc (defaultsTower kvs) "enable_weekly_report" = some (.bool true) := by
  unfold defaultsTower
  rw [lookupAssoc_setAssoc_ne _ _ (show "enable_weekly_report" ≠ "whale_alert_threshold" by decide),
    lookupAssoc_setAssoc_ne _ _ (show "enable_weekly_report" ≠ "enable_chatter_report" by decide),
    lookupAssoc_setAssoc_ne _ _ (show "enable_weekly_report" ≠ "enable_whale_alerts" by decide),
    lookupAssoc_setAssoc_self]

theorem defaultsTower_whale (kvs : List (String × Json)) :
    lookupAssoc (defaultsTower kvs) "enable_whale_alerts" = some (.bool true) := by
  unfold defaultsTower
  rw [lookupAssoc_setAssoc_ne _ _ (show "enable_whale_alerts" ≠ "whale_alert_threshold" by decide),
    lookupAssoc_setAssoc_ne _ _ (show "enable_whale_alerts" ≠ "enable_chatter_report" by decide),
    lookupAssoc_setAssoc_self]

theorem defaultsTower_chatter (kvs : List (String × Json)) :
    lookupAssoc (defaultsTower kvs) "enable_chatter_report" = some (.bool false) := by
  unfold defaultsTower
  rw [lookupAssoc_setAssoc_ne _ _ (show "enable_chatter_report" ≠ "whale_alert_threshold" by decide),
    lookupAssoc_setAssoc_self]

theorem defaultsTower_threshold (kvs : List (String × Json)) :
    lookupAssoc (defaultsTower kvs) "whale_alert_threshold" = some (.int 4) := by
  unfold defaultsTower
  rw [lookupAssoc_setAssoc_self]

/-- C9: a legacy single-account record (top-level `platform` and
`platform_account_id`, no `models` list, no `chat_type`) loads into a
`ChatMapping` with exactly one model carrying those two values and no nickname,
with defaults `chat_type = "agency"`, `enable_chatter_report = false` and
`whale_alert_threshold = 4`; and the load step never writes the stored file
back. -/
theorem legacy_record_load (kvs : List (String × Json)) (p a : String)
    (hplat : lookupAssoc kvs "platform" = some (.str p))
    (hacct : lookupAssoc kvs "platform_account_id" = some (.str a))
    (hct : lookupAssoc kvs "chat_type" = none)
    (hmodels : lookupAssoc kvs "models" = none) :
    loadOne (.obj kvs) = some (ChatMapping.mk [ModelConfig.mk p a none] "agency" true true true false 4) ∧
    ∀ file, (StorageManager.loadFromFile file).1 = file := by
  refine ⟨?_, fun _ => rfl⟩
  simp [loadOne, Json.asObj, hplat, hacct, hct, Option.bind, Json.asStr,
    getStrD, getBoolD, getIntD, defaultsTower_chat_type, defaultsTower_daily,
    defaultsTower_weekly, defaultsTower_whale, defaultsTower_chatter,
    defaultsTower_threshold, Json.asBool, Json.asInt]

/-- C9 witness: a concrete legacy record. -/
theorem legacy_record_load_witness :
    lookupAssoc [("platform", Json.str "onlyfans"), ("platform_account_id", Json.str "454315739")] "platform" = some (.str "onlyfans") ∧
    loadOne (.obj [("platform", Json.str "onlyfans"), ("platform_account_id", Json.str "454315739")])
      = some (ChatMapping.mk [ModelConfig.mk "onlyfans" "454315739" none] "agency" true true true false 4) := by
  refine ⟨rfl, ?_⟩
  exact (legacy_record_load
    [("platform", Json.str "onlyfans"), ("platform_account_id", Json.str "454315739")]
    "onlyfans" "454315739" rfl rfl rfl rfl).1

/-! ## Revenue calculation properties -/

theorem sumAmounts_eq_filterMap (items : List Transaction) :
    sumAmounts items = (items.filterMap (fun t => parseAmount t.amount)).sum := by
  have key : ∀ (l : List Transaction) (acc : ℚ),
      l.foldl (fun acc t => match parseAmount t.amount with
        | some q => acc + q
        | none => acc) acc = acc + (l.filterMap (fun t => parseAmount t.amount)).sum := by
    intro l
    induction l with
    | nil => intro acc; simp
    | cons hd tl ih =>
      intro acc
      cases h : parseAmount hd.amount with
      | none => simp [List.filterMap_cons, h, ih]
      | some q => simp [List.filterMap_cons, h, ih, add_assoc]
  simpa using key items 0

/-- C10: `calculate_revenue` counts every returned transaction item, including
those whose amount is missing or unparsable, while such items contribute
nothing to the summed amount: the reported total is the fixed net multiplier
times the sum of exactly the parsable amounts. -/
theorem calculate_revenue_count_and_sum (items : List Transaction)
    (start_time end_time : UtcTime) (subs : Option (Option Int × Option Int)) :
    (calculate_revenue items start_time end_time subs).transaction_count = items.length ∧
    (calculate_revenue items start_time end_time subs).total_amount
      = ((items.filterMap (fun t => parseAmount t.amount)).sum) * (80 / 100) := by
  exact ⟨rfl, by simp [calculate_revenue, sumAmounts_eq_filterMap]⟩

/-! ## Daily report job -/

/-- C1 is a code bug: the claim (and the job's own docstring and the bot help
text) says each firing computes the previous-day revenue for every chat with
`enable_daily_report` and sends it the report; but the job body reads
`mapping.platform` and `mapping.platform_account_id`, attributes the
multi-model `ChatMapping` no longer has, so every chat's iteration raises
`AttributeError` into the per-chat handler and the job sends nothing — for
every registry, every date and every fetch behaviour. -/
theorem daily_report_job_sends_nothing (today : Date)
    (mappings : List (String × ChatMapping))
    (calcRev : String → String → UtcTime → UtcTime → Except Unit RevenueStats) :
    daily_report_job today mappings calcRev = [] := by
  unfold daily_report_job
  induction mappings with
  | nil => rfl
  | cons hd tl ih =>
    simpa [ChatMapping.attr_platform, ChatMapping.attr_platform_account_id] using ih

/-! ## Whale alert deduplication -/

/-- C2 counterexample: the claim says a qualifying event fires a new alert when
`t1 − t0 ≥ 30` minutes.  With a last alert stored at `t0 = 0` and a qualifying
fan (buying power 5 ≥ threshold 4) polled at exactly `t1 = 1800` seconds, the
code compares with strict `>` and suppresses: no alert is sent and the stored
timestamp is unchanged. -/
theorem whale_dedup_thirty_minute_boundary :
    whale_check_fans "c" 4 [Fan.mk "bigfan" "f1" 5 100] [("whale_c_f1", 0)] 1800
      = ([], [("whale_c_f1", 0)]) := by
  simp [whale_check_fans, alert_key, lookupAssoc]

/-- C2 as amended: for a stored last-alert time `t0` of a `(chat, fan)` key, a
qualifying event (buying power at or above the chat's threshold) at `t1` is
suppressed — with no change to the stored timestamp — when `t1 − t0 ≤ 30`
minutes, and fires a new alert (updating the stored timestamp to `t1`) exactly
when `t1 − t0` is strictly greater than 30 minutes. -/
theorem whale_dedup_window (chat_id : String) (threshold : Int) (f : Fan)
    (t0 t1 : ℚ) (bot_data : List (String × ℚ))
    (hstored : lookupAssoc bot_data (alert_key chat_id f.id) = some t0)
    (hqual : threshold ≤ f.buying_power) :
    (t1 - t0 ≤ 1800 → whale_check_fans chat_id threshold [f] bot_data t1 = ([], bot_data)) ∧
    (1800 < t1 - t0 → whale_check_fans chat_id threshold [f] bot_data t1
        = ([f], setAssoc bot_data (alert_key chat_id f.id) t1)) := by
  constructor
  · intro hle
    simp [whale_check_fans, hqual, hstored, not_lt_of_le hle]
  · intro hgt
    simp [whale_check_fans, hqual, hstored, hgt]

/-- C2 witness: a qualifying event 2000 seconds after the stored alert fires
and refreshes the stored timestamp. -/
theorem whale_dedup_window_witness :
    lookupAssoc [("whale_c_f1", (0 : ℚ))] (alert_key "c" "f1") = some 0 ∧
    whale_check_fans "c" 4 [Fan.mk "bigfan" "f1" 5 100] [("whale_c_f1", 0)] 2000
      = ([Fan.mk "bigfan" "f1" 5 100], [("whale_c_f1", 2000)]) := by
  have h := whale_dedup_window "c" 4 (Fan.mk "bigfan" "f1" 5 100) 0 2000
    [("whale_c_f1", 0)] (by rfl) (by norm_num)
  refine ⟨by rfl, ?_⟩
  have h2 := h.2 (by norm_num)
  simpa [alert_key, setAssoc] using h2

/-! ## The today command: failure propagation -/

theorem fetch_all_stats_error (calcRev : ModelConfig → Except Unit RevenueStats) :
    ∀ (models : List ModelConfig) (m : ModelConfig), m ∈ models → calcRev m = .error () →
      fetch_all_stats models calcRev = .error () := by
  intro models
  induction models with
  | nil => intro m hm _; cases hm
  | cons hd tl ih =>
    intro m hm he
    rcases List.mem_cons.mp hm with h | h
    · subst h; simp [fetch_all_stats, mapExcept, he, Except.map]
    · cases hh : calcRev hd with
      | error e => cases e; simp [fetch_all_stats, mapExcept, hh, Except.map]
      | ok s =>
        have htl := ih m h he
        simp only [fetch_all_stats, Except.map] at htl
        simp [fetch_all_stats, mapExcept, hh, htl, Except.map]

theorem fetch_all_stats_ok (calcRev : ModelConfig → Except Unit RevenueStats) :
    ∀ (models : List ModelConfig), (∀ m ∈ models, ∃ s, calcRev m = .ok s) →
      ∃ l, fetch_all_stats models calcRev = .ok l ∧ l.map Prod.fst = models ∧
        ∀ p ∈ l, calcRev p.1 = .ok p.2 := by
  intro models
  induction models with
  | nil => intro _; exact ⟨[], rfl, rfl, by simp⟩
  | cons hd tl ih =>
    intro hall
    rcases hall hd (List.mem_cons_self _ _) with ⟨s, hs⟩
    rcases ih (fun m hm => hall m (List.mem_cons_of_mem _ hm)) with ⟨l, hl, hfst, hmem⟩
    refine ⟨(hd, s) :: l, ?_, by simp [hfst], ?_⟩
    · simp only [fetch_all_stats, Except.map] at hl
      simp [fetch_all_stats, mapExcept, hs, hl, Except.map]
    · intro p hp
      rcases List.mem_cons.mp hp with h | h
      · subst h; exact hs
      · exact hmem p h

/-- C3 counterexample: two linked models where the revenue fetch fails for the
first and succeeds for the second.  The claim says the second account's revenue
is still computed and included in the combined total and breakdown; the code
has a single `try` around the whole fetch loop, so the command replies with the
error message and reports nothing. -/
theorem cmd_today_single_failure_aborts :
    cmd_today_report [ModelConfig.mk "onlyfans" "alpha" none, ModelConfig.mk "onlyfans" "beta" none]
      (fun m => if m.platform_account_id = "alpha" then .error () else
        .ok (RevenueStats.mk 100 "USD" 3 (UtcTime.mk (Date.mk 2025 1 2) 0)
          (UtcTime.mk (Date.mk 2025 1 2) hourMicros) (some 2) none))
      = .fetchError := by
  rfl

/-- C3 as amended: in the multi-account report path, failure of the revenue
fetch for any account aborts the whole report — the command sends a single
error message and no account's revenue is reported; only when every account's
fetch succeeds does the reply carry the combined total and the per-account
breakdown, one entry per model in order. -/
theorem cmd_today_failure_propagation (models : List ModelConfig)
    (calcRev : ModelConfig → Except Unit RevenueStats) :
    ((∃ m ∈ models, calcRev m = .error ()) → cmd_today_report models calcRev = .fetchError) ∧
    (2 ≤ models.length → (∀ m ∈ models, ∃ s, calcRev m = .ok s) →
      ∃ breakdown, cmd_today_report models calcRev =
          .combined ((breakdown.map (fun p => p.2.total_amount)).sum)
            ((breakdown.map (fun p => (p.2.new_subscribers).getD 0)).sum) breakdown ∧
        breakdown.map Prod.fst = models ∧ ∀ p ∈ breakdown, calcRev p.1 = .ok p.2) := by
  constructor
  · rintro ⟨m, hm, he⟩
    simp [cmd_today_report, fetch_all_stats_error calcRev models m hm he]
  · intro hlen hall
    rcases fetch_all_stats_ok calcRev models hall with ⟨l, hl, hfst, hmem⟩
    refine ⟨l, ?_, hfst, hmem⟩
    have hllen : 2 ≤ l.length := by
      have h := congrArg List.length hfst
      simp only [List.length_map] at h
      omega
    match l, hllen with
    | a :: b :: rest, _ => simp [cmd_today_report, hl]

/-- C3 witness: with both fetches succeeding the combined reply carries both
accounts; with the failing fetch the reply is the error message. -/
theorem cmd_today_failure_propagation_witness :
    (∃ m ∈ [ModelConfig.mk "onlyfans" "alpha" none, ModelConfig.mk "onlyfans" "beta" none],
      (fun _ : ModelConfig => (Except.error () : Except Unit RevenueStats)) m = .error ()) ∧
    cmd_today_report [ModelConfig.mk "onlyfans" "alpha" none, ModelConfig.mk "onlyfans" "beta" none]
      (fun _ => .error ()) = .fetchError := by
  refine ⟨⟨ModelConfig.mk "onlyfans" "alpha" none, by simp, rfl⟩, ?_⟩
  exact (cmd_today_failure_propagation _ _).1
    ⟨ModelConfig.mk "onlyfans" "alpha" none, by simp, rfl⟩

/-! ## OnlyFans day range: adjacency and the 01:00 local anchor -/

theorem monthLen_bounds (y m : Int) : 28 ≤ monthLen y m ∧ monthLen y m ≤ 31 := by
  unfold monthLen
  split_ifs <;> norm_num

theorem monthLen_twelve (y : Int) : monthLen y 12 = 31 := by norm_num [monthLen]

theorem monthLen_three (y : Int) : monthLen y 3 = 31 := by norm_num [monthLen]

theorem lastSundayDay_bounds (y m : Int) :
    25 ≤ lastSundayDay y m ∧ lastSundayDay y m ≤ 31 := by
  unfold lastSundayDay dowSun
  have h1 := Int.emod_nonneg (daysFromCivil y m 31 + 4) (by norm_num : (7 : Int) ≠ 0)
  have h2 := Int.emod_lt_of_pos (daysFromCivil y m 31 + 4) (by norm_num : (0 : Int) < 7)
  omega

theorem validDate_nextDay (d : Date) (h : ValidDate d) : ValidDate (nextDay d) := by
  obtain ⟨y, m, day⟩ := d
  obtain ⟨h1, h2, h3, h4⟩ := h
  dsimp only at h1 h2 h3 h4
  unfold nextDay
  dsimp only
  split_ifs with hd hm
  · show ValidDate ⟨y, m, day + 1⟩
    unfold ValidDate
    dsimp only
    omega
  · show ValidDate ⟨y, m + 1, 1⟩
    unfold ValidDate
    dsimp only
    have hb := (monthLen_bounds y (m + 1)).1
    omega
  · show ValidDate ⟨y + 1, 1, 1⟩
    unfold ValidDate
    dsimp only
    have hb := (monthLen_bounds (y + 1) 1).1
    omega

theorem nextDay_prevDay (d : Date) (h : ValidDate d) : nextDay (prevDay d) = d := by
  obtain ⟨y, m, day⟩ := d
  obtain ⟨h1, h2, h3, h4⟩ := h
  dsimp only at h1 h2 h3 h4
  unfold prevDay
  dsimp only
  split_ifs with hd hm
  · show nextDay ⟨y, m, day - 1⟩ = ⟨y, m, day⟩
    unfold nextDay
    dsimp only
    rw [if_pos (show day - 1 < monthLen y m by omega)]
    have he : day - 1 + 1 = day := by omega
    rw [he]
  · show nextDay ⟨y, m - 1, monthLen y (m - 1)⟩ = ⟨y, m, day⟩
    unfold nextDay
    dsimp only
    rw [if_neg (lt_irrefl _), if_pos (show m - 1 < 12 by omega)]
    have he : m - 1 + 1 = m := by omega
    have hd1 : day = 1 := by omega
    rw [he, hd1]
  · show nextDay ⟨y - 1, 12, 31⟩ = ⟨y, m, day⟩
    unfold nextDay
    dsimp only
    rw [monthLen_twelve, if_neg (lt_irrefl _), if_neg (by omega)]
    have he : y - 1 + 1 = y := by omega
    have hm1 : m = 1 := by omega
    have hd1 : day = 1 := by omega
    rw [he, hm1, hd1]

theorem prevDay_nextDay (d : Date) (h : ValidDate d) : prevDay (nextDay d) = d := by
  obtain ⟨y, m, day⟩ := d
  obtain ⟨h1, h2, h3, h4⟩ := h
  dsimp only at h1 h2 h3 h4
  unfold nextDay
  dsimp only
  split_ifs with hd hm
  · show prevDay ⟨y, m, day + 1⟩ = ⟨y, m, day⟩
    unfold prevDay
    dsimp only
    rw [if_pos (show 1 < day + 1 by omega)]
    have he : day + 1 - 1 = day := by omega
    rw [he]
  · show prevDay ⟨y, m + 1, 1⟩ = ⟨y, m, day⟩
    unfold prevDay
    dsimp only
    rw [if_neg (lt_irrefl _), if_pos (show 1 < m + 1 by omega)]
    have he : m + 1 - 1 = m := by omega
    have hd1 : day = monthLen y m := by omega
    rw [he, hd1]
  · show prevDay ⟨y + 1, 1, 1⟩ = ⟨y, m, day⟩
    unfold prevDay
    dsimp only
    rw [if_neg (lt_irrefl _), if_neg (lt_irrefl _)]
    have he : y + 1 - 1 = y := by omega
    have hm12 : m = 12 := by omega
    have hd31 : day = 31 := by
      rw [hm12, monthLen_twelve] at h4 hd
      omega
    rw [he, hm12, hd31]

theorem berlinDstLocal_congr_below_two (d : Date) {t1 t2 : Int}
    (h1 : 0 ≤ t1) (h1' : t1 < 2 * hourMicros) (h2 : 0 ≤ t2) (h2' : t2 < 2 * hourMicros) :
    (BerlinDstLocal d t1 ↔ BerlinDstLocal d t2) := by
  unfold BerlinDstLocal hourMicros at *
  omega

theorem berlinOffsetLocal_congr_below_two (d : Date) {t1 t2 : Int}
    (h1 : 0 ≤ t1) (h1' : t1 < 2 * hourMicros) (h2 : 0 ≤ t2) (h2' : t2 < 2 * hourMicros) :
    berlinOffsetLocal d t1 = berlinOffsetLocal d t2 := by
  unfold berlinOffsetLocal
  by_cases hdst : BerlinDstLocal d t2
  · rw [if_pos ((berlinDstLocal_congr_below_two d h1 h1' h2 h2').mpr hdst), if_pos hdst]
  · rw [if_neg (fun hc => hdst ((berlinDstLocal_congr_below_two d h1 h1' h2 h2').mp hc)),
      if_neg hdst]

theorem berlinDstUtc_midnight_iff (d : Date) :
    BerlinDstUtc (UtcTime.mk d 0) ↔ BerlinDstLocal d hourMicros := by
  unfold BerlinDstUtc BerlinDstLocal hourMicros
  dsimp only
  omega

theorem of_day_adjacent_aux (D : Date) (h : ValidDate D) :
    succMicro (get_of_day_range D).2 = (get_of_day_range (nextDay D)).1 := by
  have hvN := validDate_nextDay D h
  unfold get_of_day_range
  dsimp only
  have hoff := berlinOffsetLocal_congr_below_two (nextDay D)
    (show (0 : Int) ≤ hourMicros - 1 by norm_num [hourMicros])
    (show hourMicros - 1 < 2 * hourMicros by norm_num [hourMicros])
    (show (0 : Int) ≤ hourMicros by norm_num [hourMicros])
    (show hourMicros < 2 * hourMicros by norm_num [hourMicros])
  by_cases hdst : BerlinDstLocal (nextDay D) hourMicros
  · have ho1 : berlinOffsetLocal (nextDay D) hourMicros = 2 * hourMicros := by
      unfold berlinOffsetLocal; rw [if_pos hdst]
    have ho2 : berlinOffsetLocal (nextDay D) (hourMicros - 1) = 2 * hourMicros := by
      rw [hoff, ho1]
    have hend : utcOfBerlinLocal (nextDay D) (hourMicros - 1)
        = ⟨prevDay (nextDay D), 82799999999⟩ := by
      simp only [utcOfBerlinLocal, ho2]
      rw [if_pos (show hourMicros - 1 - 2 * hourMicros < 0 by norm_num [hourMicros])]
      norm_num [hourMicros, microsPerDay]
    have hstart : utcOfBerlinLocal (nextDay D) hourMicros
        = ⟨prevDay (nextDay D), 82800000000⟩ := by
      simp only [utcOfBerlinLocal, ho1]
      rw [if_pos (show hourMicros - 2 * hourMicros < 0 by norm_num [hourMicros])]
      norm_num [hourMicros, microsPerDay]
    rw [hend, hstart]
    simp only [succMicro]
    rw [if_pos (show (82799999999 : Int) + 1 < microsPerDay by norm_num [microsPerDay])]
    norm_num
  · have ho1 : berlinOffsetLocal (nextDay D) hourMicros = hourMicros := by
      unfold berlinOffsetLocal; rw [if_neg hdst]
    have ho2 : berlinOffsetLocal (nextDay D) (hourMicros - 1) = hourMicros := by
      rw [hoff, ho1]
    have hend : utcOfBerlinLocal (nextDay D) (hourMicros - 1)
        = ⟨prevDay (nextDay D), microsPerDay - 1⟩ := by
      simp only [utcOfBerlinLocal, ho2]
      rw [if_pos (show hourMicros - 1 - hourMicros < 0 by norm_num [hourMicros])]
      norm_num [hourMicros, microsPerDay]
    have hstart : utcOfBerlinLocal (nextDay D) hourMicros = ⟨nextDay D, 0⟩ := by
      simp only [utcOfBerlinLocal, ho1]
      rw [if_neg (show ¬(hourMicros - hourMicros < 0) by norm_num)]
      norm_num
    rw [hend, hstart]
    simp only [succMicro]
    rw [if_neg (show ¬(microsPerDay - 1 + 1 < microsPerDay) by norm_num)]
    rw [nextDay_prevDay (nextDay D) hvN]

theorem of_day_start_anchor_aux (D : Date) (h : ValidDate D) :
    berlinLocalOfUtc (get_of_day_range D).1 = (D, hourMicros) := by
  obtain ⟨y, m, day⟩ := D
  unfold get_of_day_range
  dsimp only
  by_cases hdst : BerlinDstLocal ⟨y, m, day⟩ hourMicros
  · have hdM := lastSundayDay_bounds y 3
    have hdO := lastSundayDay_bounds y 10
    have hdst' := hdst
    unfold BerlinDstLocal hourMicros at hdst'
    dsimp only at hdst'
    have hlow : 3 < m ∨ (m = 3 ∧ lastSundayDay y 3 < day) := by omega
    have hup : m < 10 ∨ (m = 10 ∧ day ≤ lastSundayDay y 10) := by omega
    have ho : berlinOffsetLocal ⟨y, m, day⟩ hourMicros = 2 * hourMicros := by
      unfold berlinOffsetLocal; rw [if_pos hdst]
    have hstart : utcOfBerlinLocal ⟨y, m, day⟩ hourMicros
        = ⟨prevDay ⟨y, m, day⟩, 82800000000⟩ := by
      simp only [utcOfBerlinLocal, ho]
      rw [if_pos (show hourMicros - 2 * hourMicros < 0 by norm_num [hourMicros])]
      norm_num [hourMicros, microsPerDay]
    have hdstu : BerlinDstUtc ⟨prevDay ⟨y, m, day⟩, 82800000000⟩ := by
      by_cases hd1 : 1 < day
      · have hp : prevDay ⟨y, m, day⟩ = ⟨y, m, day - 1⟩ := by
          unfold prevDay
          dsimp only
          rw [if_pos hd1]
        rw [hp]
        unfold BerlinDstUtc hourMicros
        dsimp only
        omega
      · have hm3 : 3 < m := by omega
        have hp : prevDay ⟨y, m, day⟩ = ⟨y, m - 1, monthLen y (m - 1)⟩ := by
          unfold prevDay
          dsimp only
          rw [if_neg hd1, if_pos (by omega)]
        rw [hp]
        by_cases hm4 : m = 4
        · subst hm4
          have h41 : (4 : Int) - 1 = 3 := by norm_num
          rw [h41, monthLen_three]
          unfold BerlinDstUtc hourMicros
          dsimp only
          omega
        · unfold BerlinDstUtc hourMicros
          dsimp only
          omega
    rw [hstart]
    simp only [berlinLocalOfUtc, berlinOffsetUtc]
    rw [if_pos hdstu,
      if_neg (show ¬((82800000000 : Int) + 2 * hourMicros < microsPerDay) by
        norm_num [hourMicros, microsPerDay])]
    rw [nextDay_prevDay ⟨y, m, day⟩ h]
    norm_num [hourMicros, microsPerDay]
  · have ho : berlinOffsetLocal ⟨y, m, day⟩ hourMicros = hourMicros := by
      unfold berlinOffsetLocal; rw [if_neg hdst]
    have hstart : utcOfBerlinLocal ⟨y, m, day⟩ hourMicros = ⟨⟨y, m, day⟩, 0⟩ := by
      simp only [utcOfBerlinLocal, ho]
      rw [if_neg (show ¬(hourMicros - hourMicros < 0) by norm_num)]
      norm_num
    rw [hstart]
    have hnd : ¬ BerlinDstUtc ⟨⟨y, m, day⟩, 0⟩ := fun hc =>
      hdst ((berlinDstUtc_midnight_iff _).mp hc)
    simp only [berlinLocalOfUtc, berlinOffsetUtc]
    rw [if_neg hnd,
      if_pos (show (0 : Int) + hourMicros < microsPerDay by norm_num [hourMicros, microsPerDay])]
    norm_num

/-- C4: for every valid calendar date `D`, `get_of_day_range D` ends exactly
one microsecond before `get_of_day_range (D + 1 day)` starts (adjacent windows,
no gap and no overlap), and the start of `get_of_day_range D` is 01:00 local
time in the modelled Europe/Berlin zone on `D` — for every date, including
dates on and around the daylight-saving transitions. -/
theorem of_day_range_adjacent_and_anchored (D : Date) (h : ValidDate D) :
    succMicro (get_of_day_range D).2 = (get_of_day_range (nextDay D)).1 ∧
    berlinLocalOfUtc (get_of_day_range D).1 = (D, hourMicros) :=
  ⟨of_day_adjacent_aux D h, of_day_start_anchor_aux D h⟩

/-- C4 witness: the window of 2025-03-29, whose end lies on the spring-forward
date 2025-03-30, is adjacent to the next window, and the 2025-03-30 and
2025-10-26 (fall-back) windows start at 01:00 Berlin local time. -/
theorem of_day_range_adjacent_and_anchored_witness :
    ValidDate ⟨2025, 3, 29⟩ ∧
    succMicro (get_of_day_range ⟨2025, 3, 29⟩).2 = (get_of_day_range (nextDay ⟨2025, 3, 29⟩)).1 ∧
    berlinLocalOfUtc (get_of_day_range ⟨2025, 3, 30⟩).1 = (⟨2025, 3, 30⟩, hourMicros) ∧
    berlinLocalOfUtc (get_of_day_range ⟨2025, 10, 26⟩).1 = (⟨2025, 10, 26⟩, hourMicros) := by
  refine ⟨by decide, (of_day_range_adjacent_and_anchored ⟨2025, 3, 29⟩ (by decide)).1,
    (of_day_range_adjacent_and_anchored ⟨2025, 3, 30⟩ (by decide)).2,
    (of_day_range_adjacent_and_anchored ⟨2025, 10, 26⟩ (by decide)).2⟩

/-! ## Link and unlink invariants -/

theorem lookupAssoc_mem {α : Type} (l : List (String × α)) (k : String) (v : α) :
    lookupAssoc l k = some v → (k, v) ∈ l := by
  induction l with
  | nil => intro h; cases h
  | cons hd tl ih =>
    rcases hd with ⟨k0, v0⟩
    intro h
    by_cases hk : k0 = k
    · subst hk
      have h' : v0 = v := by simpa [lookupAssoc] using h
      subst h'
      exact List.mem_cons_self _ _
    · simp only [lookupAssoc, if_neg hk] at h
      exact List.mem_cons_of_mem _ (ih h)

/-- C8 counterexample: from a state satisfying the spec's nickname-uniqueness
invariant, `/link onlyfans 222 agency marc` on a chat that already has a model
nicknamed `Marc` is accepted, and the resulting chat violates the invariant
(two nicknames equal case-insensitively).  `cmd_link` never inspects nicknames,
so the claimed preservation fails. -/
theorem link_allows_duplicate_nickname :
    nicknameUniqueSpec
      (ChatMapping.mk [ModelConfig.mk "onlyfans" "111" (some "Marc")] "agency" true true false false 4) ∧
    (cmd_link [("c1", ChatMapping.mk [ModelConfig.mk "onlyfans" "111" (some "Marc")] "agency" true true false false 4)]
      "c1" ["onlyfans", "222", "agency", "marc"]).1 = .addedModel ∧
    (cmd_link [("c1", ChatMapping.mk [ModelConfig.mk "onlyfans" "111" (some "Marc")] "agency" true true false false 4)]
      "c1" ["onlyfans", "222", "agency", "marc"]).2
      = [("c1", ChatMapping.mk [ModelConfig.mk "onlyfans" "111" (some "Marc"),
          ModelConfig.mk "onlyfans" "222" (some "marc")] "agency" true true false false 4)] ∧
    ¬ nicknameUniqueSpec
      (ChatMapping.mk [ModelConfig.mk "onlyfans" "111" (some "Marc"),
        ModelConfig.mk "onlyfans" "222" (some "marc")] "agency" true true false false 4) := by
  refine ⟨by decide, by decide, by decide, by decide⟩

/-- C8 as amended: every link and unlink preserves the per-chat invariant that
no two model entries of one chat share the same `(platform, account_id)`; an
attempt to link an already-linked `(platform, account_id)` to the same chat is
rejected with the state unchanged, while a link to a chat that does not itself
hold that pair succeeds regardless of other chats' contents (so linking the
pair to a different chat is permitted).  Case-insensitive nickname uniqueness
is not enforced by the code (see the counterexample). -/
theorem link_unlink_model_key_invariants (mappings : List (String × ChatMapping))
    (chat_id : String) (args : List String) (hInv : RegistryModelKeysOk mappings) :
    RegistryModelKeysOk (cmd_link mappings chat_id args).2 ∧
    RegistryModelKeysOk (cmd_unlink mappings chat_id args).2 ∧
    (∀ platform account_id ct nick existing,
      parse_link_args args = some (platform, account_id, ct, nick) →
      platform ∈ SUPPORTED_PLATFORMS →
      lookupAssoc mappings chat_id = some existing →
      ((existing.models.any (fun m =>
          decide (m.platform = platform ∧ m.platform_account_id = account_id)) = true →
        cmd_link mappings chat_id args = (.alreadyLinked, mappings)) ∧
       (existing.models.any (fun m =>
          decide (m.platform = platform ∧ m.platform_account_id = account_id)) = false →
        cmd_link mappings chat_id args = (.addedModel, setAssoc mappings chat_id
          { existing with models := existing.models ++ [⟨platform, account_id, nick⟩] })))) ∧
    (∀ platform account_id ct nick,
      parse_link_args args = some (platform, account_id, ct, nick) →
      platform ∈ SUPPORTED_PLATFORMS →
      lookupAssoc mappings chat_id = none →
      ∃ mnew, cmd_link mappings chat_id args = (.createdMapping, setAssoc mappings chat_id mnew) ∧
        mnew.models = [⟨platform, account_id, nick⟩]) := by
  refine ⟨?_, ?_, ?_, ?_⟩
  · -- link preserves the model-key invariant
    unfold cmd_link
    cases hp : parse_link_args args with
    | none => exact hInv
    | some q =>
      obtain ⟨platform, account_id, ct, nick⟩ := q
      dsimp only
      by_cases hsup : platform ∈ SUPPORTED_PLATFORMS
      · rw [if_neg (not_not_intro hsup)]
        cases hlook : lookupAssoc mappings chat_id with
        | some existing =>
          dsimp only
          by_cases hdup : (existing.models.any (fun m =>
              decide (m.platform = platform ∧ m.platform_account_id = account_id))) = true
          · rw [if_pos hdup]
            exact hInv
          · rw [if_neg hdup]
            intro q hq
            rcases mem_setAssoc _ _ _ _ hq with hq' | hq'
            · rw [hq']
              have hex : modelKeysOk existing :=
                hInv (chat_id, existing) (lookupAssoc_mem _ _ _ hlook)
              have hany : existing.models.any (fun m =>
                  decide (m.platform = platform ∧ m.platform_account_id = account_id)) = false :=
                (Bool.not_eq_true _) ▸ hdup
              have hcross := List.any_eq_false.mp hany
              unfold modelKeysOk at hex ⊢
              dsimp only
              refine List.pairwise_append.mpr ⟨hex, List.pairwise_singleton _ _, ?_⟩
              intro x hx b hb
              have hb' : b = ⟨platform, account_id, nick⟩ := by simpa using hb
              subst hb'
              have := hcross x hx
              simpa using this
            · exact hInv q hq'
        | none =>
          dsimp only
          intro q hq
          rcases mem_setAssoc _ _ _ _ hq with hq' | hq'
          · rw [hq']
            unfold modelKeysOk
            exact List.pairwise_singleton _ _
          · exact hInv q hq'
      · rw [if_pos hsup]
        exact hInv
  · -- unlink preserves the model-key invariant
    unfold cmd_unlink
    cases hlook : lookupAssoc mappings chat_id with
    | none => exact hInv
    | some mapping =>
      dsimp only
      cases args with
      | nil => exact hInv
      | cons a rest =>
        dsimp only
        split_ifs with hall
        · intro q hq
          exact hInv q (List.mem_of_mem_filter hq)
        · cases hfind : mapping.models.find? (modelMatches (pyLower (" ".intercalate (a :: rest)))) with
          | none => exact hInv
          | some target =>
            dsimp only
            split_ifs with hempty
            · intro q hq
              exact hInv q (List.mem_of_mem_filter hq)
            · intro q hq
              rcases mem_setAssoc _ _ _ _ hq with hq' | hq'
              · rw [hq']
                have hex : modelKeysOk mapping :=
                  hInv (chat_id, mapping) (lookupAssoc_mem _ _ _ hlook)
                unfold modelKeysOk at hex ⊢
                dsimp only
                exact List.Pairwise.sublist (List.eraseP_sublist _) hex
              · exact hInv q hq'
  · -- same-chat duplicate rejected unchanged; non-duplicate appended
    intro platform account_id ct nick existing hp hsup hlook
    constructor
    · intro hdup
      unfold cmd_link
      rw [hp]
      dsimp only
      rw [if_neg (not_not_intro hsup), hlook]
      dsimp only
      rw [if_pos hdup]
    · intro hnodup
      unfold cmd_link
      rw [hp]
      dsimp only
      rw [if_neg (not_not_intro hsup), hlook]
      dsimp only
      rw [if_neg (show ¬(existing.models.any (fun m =>
        decide (m.platform = platform ∧ m.platform_account_id = account_id)) = true) by
          rw [hnodup]; simp)]
  · -- new chat: creation succeeds independently of other chats
    intro platform account_id ct nick hp hsup hlook
    refine ⟨ChatMapping.mk [⟨platform, account_id, nick⟩] (ct.getD "agency")
      (decide (ct.getD "agency" = "agency")) (decide (ct.getD "agency" = "agency"))
      (decide (ct.getD "agency" = "chatter")) false 4, ?_, rfl⟩
    unfold cmd_link
    rw [hp]
    dsimp only
    rw [if_neg (not_not_intro hsup), hlook]

/-- C8 witness: linking the pair `(onlyfans, 111)` — already linked to chat
`c1` — to the different chat `c2` succeeds, and the model-key invariant holds
afterwards. -/
theorem link_unlink_model_key_invariants_witness :
    RegistryModelKeysOk
      ((cmd_link [("c1", ChatMapping.mk [ModelConfig.mk "onlyfans" "111" none] "agency" true true false false 4)]
        "c2" ["onlyfans", "111"]).2) ∧
    (cmd_link [("c1", ChatMapping.mk [ModelConfig.mk "onlyfans" "111" none] "agency" true true false false 4)]
      "c2" ["onlyfans", "111"]).1 = .createdMapping := by
  have h := link_unlink_model_key_invariants
    [("c1", ChatMapping.mk [ModelConfig.mk "onlyfans" "111" none] "agency" true true false false 4)]
    "c2" ["onlyfans", "111"] (by decide)
  refine ⟨h.1, ?_⟩
  rcases h.2.2.2 "onlyfans" "111" none none (by decide) (by decide) (by decide) with ⟨mnew, hres, _⟩
  rw [hres]

/-! ## Chatter aggregation -/

theorem mem_foldl_firstOccurs (xs : List String) :
    ∀ (acc : List String) (y : String),
      y ∈ xs.foldl (fun acc n => if n ∈ acc then acc else acc ++ [n]) acc ↔ y ∈ acc ∨ y ∈ xs := by
  induction xs with
  | nil => intro acc y; simp
  | cons x rest ih =>
    intro acc y
    by_cases hx : x ∈ acc
    · rw [List.foldl_cons, if_pos hx, ih]
      constructor
      · rintro (h | h)
        · exact Or.inl h
        · exact Or.inr (List.mem_cons_of_mem _ h)
      · rintro (h | h)
        · exact Or.inl h
        · rcases List.mem_cons.mp h with h' | h'
          · exact Or.inl (h' ▸ hx)
          · exact Or.inr h'
    · rw [List.foldl_cons, if_neg hx, ih]
      simp only [List.mem_append, List.mem_singleton, List.mem_cons]
      tauto

theorem mem_firstOccurs (xs : List String) (y : String) :
    y ∈ firstOccurs xs ↔ y ∈ xs := by
  have := mem_foldl_firstOccurs xs [] y
  simpa [firstOccurs] using this

theorem firstOccurs_nodup (xs : List String) : (firstOccurs xs).Nodup := by
  have key : ∀ (l : List String) (acc : List String), acc.Nodup →
      (l.foldl (fun acc n => if n ∈ acc then acc else acc ++ [n]) acc).Nodup := by
    intro l
    induction l with
    | nil => intro acc h; exact h
    | cons x rest ih =>
      intro acc h
      by_cases hx : x ∈ acc
      · rw [List.foldl_cons, if_pos hx]
        exact ih acc h
      · rw [List.foldl_cons, if_neg hx]
        refine ih _ ?_
        simpa [List.nodup_append] using ⟨h, hx⟩
  exact key xs [] List.nodup_nil

theorem firstOccurs_append_one (xs : List String) (x : String) :
    firstOccurs (xs ++ [x])
      = if x ∈ firstOccurs xs then firstOccurs xs else firstOccurs xs ++ [x] := by
  simp [firstOccurs, List.foldl_append]

theorem combineChatters_append_one (l : List ChatterStats) (s : ChatterStats) :
    combineChatters (l ++ [s]) = updateAssocChatter (combineChatters l) s := by
  simp [combineChatters, List.foldl_append]

theorem buildEntry_append_one (t : List ChatterStats) (s : ChatterStats) :
    buildEntry (t ++ [s]) = addStats (buildEntry t) s := by
  simp [buildEntry, List.foldl_append]

theorem ua_keys (acc : List (String × CombinedEntry)) (s : ChatterStats) :
    (updateAssocChatter acc s).map Prod.fst
      = if s.chatter_name ∈ acc.map Prod.fst then acc.map Prod.fst
        else acc.map Prod.fst ++ [s.chatter_name] := by
  induction acc with
  | nil => simp [updateAssocChatter]
  | cons hd rest ih =>
    rcases hd with ⟨n0, e0⟩
    by_cases hn : n0 = s.chatter_name
    · subst hn
      simp [updateAssocChatter]
    · simp only [updateAssocChatter, if_neg hn, List.map_cons, ih]
      by_cases hmem : s.chatter_name ∈ rest.map Prod.fst
      · rw [if_pos hmem, if_pos (List.mem_cons_of_mem _ hmem)]
      · rw [if_neg hmem, if_neg (by
          intro hc
          rcases List.mem_cons.mp hc with h' | h'
          · exact hn h'.symm
          · exact hmem h')]
        simp

theorem ua_mem (acc : List (String × CombinedEntry)) (s : ChatterStats)
    (hnd : (acc.map Prod.fst).Nodup) (n : String) (e : CombinedEntry)
    (h : (n, e) ∈ updateAssocChatter acc s) :
    (n ≠ s.chatter_name ∧ (n, e) ∈ acc) ∨
    (n = s.chatter_name ∧ ∃ e0, (n, e0) ∈ acc ∧ e = addStats e0 s) ∨
    (n = s.chatter_name ∧ n ∉ acc.map Prod.fst ∧ e = addStats emptyEntry s) := by
  induction acc with
  | nil =>
    simp only [updateAssocChatter, List.mem_singleton, Prod.mk.injEq] at h
    exact Or.inr (Or.inr ⟨h.1, by simp, h.2⟩)
  | cons hd rest ih =>
    rcases hd with ⟨n0, e0⟩
    simp only [List.map_cons, List.nodup_cons] at hnd
    by_cases hn : n0 = s.chatter_name
    · subst hn
      have hua : updateAssocChatter ((s.chatter_name, e0) :: rest) s
          = (s.chatter_name, addStats e0 s) :: rest := by
        simp [updateAssocChatter]
      rw [hua] at h
      rcases List.mem_cons.mp h with heq | hmem
      · have hn' : n = s.chatter_name := congrArg Prod.fst heq
        have he' : e = addStats e0 s := congrArg Prod.snd heq
        refine Or.inr (Or.inl ⟨hn', e0, ?_, he'⟩)
        rw [hn']
        exact List.mem_cons_self _ _
      · have hne : n ≠ s.chatter_name := by
          intro hc
          exact hnd.1 (hc ▸ List.mem_map.mpr ⟨(n, e), hmem, rfl⟩)
        exact Or.inl ⟨hne, List.mem_cons_of_mem _ hmem⟩
    · have hua : updateAssocChatter ((n0, e0) :: rest) s
          = (n0, e0) :: updateAssocChatter rest s := by
        simp [updateAssocChatter, hn]
      rw [hua] at h
      rcases List.mem_cons.mp h with heq | hmem
      · have hn' : n = n0 := congrArg Prod.fst heq
        have he' : e = e0 := congrArg Prod.snd heq
        refine Or.inl ⟨fun hc => hn (hn' ▸ hc), ?_⟩
        rw [hn', he']
        exact List.mem_cons_self _ _
      · rcases ih hnd.2 hmem with ⟨h1, h2⟩ | ⟨h1, e1, h2, h3⟩ | ⟨h1, h2, h3⟩
        · exact Or.inl ⟨h1, List.mem_cons_of_mem _ h2⟩
        · exact Or.inr (Or.inl ⟨h1, e1, List.mem_cons_of_mem _ h2, h3⟩)
        · refine Or.inr (Or.inr ⟨h1, ?_, h3⟩)
          intro hc
          rcases List.mem_cons.mp hc with h' | h'
          · have h'' : n = n0 := h'
            exact hn (h''.symm.trans h1)
          · exact h2 h'

theorem combineChatters_spec (l : List ChatterStats) :
    (combineChatters l).map Prod.fst = firstOccurs (l.map (fun s => s.chatter_name)) ∧
    ∀ n e, (n, e) ∈ combineChatters l →
      e = buildEntry (l.filter (fun s => s.chatter_name = n)) := by
  induction l using List.reverseRecOn with
  | nil => exact ⟨rfl, by intro n e h; cases h⟩
  | append_singleton l s ih =>
    obtain ⟨ihk, ihe⟩ := ih
    have hnd : ((combineChatters l).map Prod.fst).Nodup := by
      rw [ihk]; exact firstOccurs_nodup _
    constructor
    · rw [combineChatters_append_one, ua_keys, ihk, List.map_append, List.map_singleton,
        firstOccurs_append_one]
    · intro n e h
      rw [combineChatters_append_one] at h
      rcases ua_mem _ _ hnd n e h with ⟨h1, h2⟩ | ⟨h1, e1, h2, h3⟩ | ⟨h1, h2, h3⟩
      · have hs : (List.filter (fun s' => decide (s'.chatter_name = n)) [s]) = [] := by
          simp only [List.filter_cons, List.filter_nil, decide_eq_true_eq]
          rw [if_neg (fun hc : s.chatter_name = n => h1 hc.symm)]
        rw [List.filter_append, hs, List.append_nil]
        exact ihe n e h2
      · have hs : (List.filter (fun s' => decide (s'.chatter_name = n)) [s]) = [s] := by
          simp [h1]
        rw [List.filter_append, hs, buildEntry_append_one, ← ihe n e1 h2, h3]
      · have hnl : n ∉ l.map (fun s => s.chatter_name) := by
          rw [ihk] at h2
          exact fun hc => h2 ((mem_firstOccurs _ _).mpr hc)
        have hfl : l.filter (fun s' => decide (s'.chatter_name = n)) = [] := by
          refine List.filter_eq_nil_iff.mpr ?_
          intro x hx
          simp only [decide_eq_true_eq]
          exact fun hc => hnl (List.mem_map.mpr ⟨x, hx, hc⟩)
        have hs : (List.filter (fun s' => decide (s'.chatter_name = n)) [s]) = [s] := by
          simp [h1]
        rw [List.filter_append, hfl, hs, List.nil_append, h3]
        rfl

theorem buildEntry_fields (t : List ChatterStats) :
    buildEntry t = CombinedEntry.mk
      ((t.map (fun s => s.total_sales)).sum)
      ((t.map (fun s => s.total_messages)).sum)
      ((t.map (fun s => s.template_messages)).sum)
      ((t.map (fun s => s.manual_messages)).sum)
      (t.map (fun s => s.avg_response_time_seconds))
      (t.map (fun s => s.ppv_conversion_rate)) := by
  have key : ∀ (t : List ChatterStats) (e0 : CombinedEntry), t.foldl addStats e0 =
      CombinedEntry.mk
        (e0.total_sales + (t.map (fun s => s.total_sales)).sum)
        (e0.total_messages + (t.map (fun s => s.total_messages)).sum)
        (e0.template_messages + (t.map (fun s => s.template_messages)).sum)
        (e0.manual_messages + (t.map (fun s => s.manual_messages)).sum)
        (e0.response_times ++ t.map (fun s => s.avg_response_time_seconds))
        (e0.conversions ++ t.map (fun s => s.ppv_conversion_rate)) := by
    intro t
    induction t with
    | nil =>
      intro e0
      obtain ⟨a, b, c, d, r, cv⟩ := e0
      simp
    | cons hd tl ihh =>
      intro e0
      rw [List.foldl_cons, ihh (addStats e0 hd)]
      simp [addStats, add_assoc]
  have h := key t emptyEntry
  simpa [emptyEntry] using h

theorem salesDescLe_trans : ∀ a b c : ChatterStats,
    salesDescLe a b = true → salesDescLe b c = true → salesDescLe a c = true := by
  intro a b c h1 h2
  simp only [salesDescLe, decide_eq_true_eq] at h1 h2 ⊢
  exact le_trans h2 h1

theorem salesDescLe_total : ∀ a b : ChatterStats,
    (salesDescLe a b || salesDescLe b a) = true := by
  intro a b
  simp only [salesDescLe, Bool.or_eq_true, decide_eq_true_eq]
  exact le_total b.total_sales a.total_sales

theorem mergeSort_filter_sales (l : List ChatterStats) (q : ℚ) :
    (l.mergeSort salesDescLe).filter (fun x => decide (x.total_sales = q))
      = l.filter (fun x => decide (x.total_sales = q)) := by
  have hall : ∀ x ∈ l.filter (fun x => decide (x.total_sales = q)), x.total_sales = q := by
    intro x hx
    have := (List.mem_filter.mp hx).2
    simpa using this
  have hc_pw : (l.filter (fun x => decide (x.total_sales = q))).Pairwise
      (fun a b => salesDescLe a b = true) := by
    refine List.pairwise_of_forall_mem_list ?_
    intro a ha b hb
    simp only [salesDescLe, decide_eq_true_eq]
    rw [hall a ha, hall b hb]
  have hsub2 : List.Sublist (l.filter (fun x => decide (x.total_sales = q)))
      (l.mergeSort salesDescLe) :=
    List.sublist_mergeSort salesDescLe_trans salesDescLe_total hc_pw (List.filter_sublist l)
  have heq : (l.filter (fun x => decide (x.total_sales = q))).filter
      (fun x => decide (x.total_sales = q)) = l.filter (fun x => decide (x.total_sales = q)) :=
    List.filter_eq_self.mpr (fun a ha => (List.mem_filter.mp ha).2)
  have hsub3 : List.Sublist (l.filter (fun x => decide (x.total_sales = q)))
      ((l.mergeSort salesDescLe).filter (fun x => decide (x.total_sales = q))) := by
    have := List.Sublist.filter (fun x => decide (x.total_sales = q)) hsub2
    rwa [heq] at this
  have hlen : ((l.mergeSort salesDescLe).filter (fun x => decide (x.total_sales = q))).length
      = (l.filter (fun x => decide (x.total_sales = q))).length :=
    ((l.mergeSort_perm salesDescLe).filter _).length_eq
  exact (hsub3.eq_of_length hlen.symm).symm

/-- C7: the cross-account chatter pipeline (per-account minimum-message filter
before the merge; grouping by exact chatter name; summed sales and message
counts; unweighted arithmetic means of response time and conversion rate;
descending stable order by total sales with ties in first-encounter order). -/
theorem chatter_aggregation_spec (perAccount : List (List ChatterStats)) :
    (∀ s ∈ (perAccount.map get_chatter_performance).flatten,
        MIN_MESSAGES_THRESHOLD ≤ s.total_messages) ∧
    (chatter_report_pipeline perAccount).Pairwise
      (fun a b => b.total_sales ≤ a.total_sales) ∧
    ((chatter_report_pipeline perAccount).map (fun s => s.chatter_name)).Perm
      (firstOccurs (((perAccount.map get_chatter_performance).flatten).map
        (fun s => s.chatter_name))) ∧
    (∀ e ∈ chatter_report_pipeline perAccount,
      (((perAccount.map get_chatter_performance).flatten).filter
          (fun s => decide (s.chatter_name = e.chatter_name))) ≠ [] ∧
      e.total_sales = ((((perAccount.map get_chatter_performance).flatten).filter
          (fun s => decide (s.chatter_name = e.chatter_name))).map (fun s => s.total_sales)).sum ∧
      e.total_messages = ((((perAccount.map get_chatter_performance).flatten).filter
          (fun s => decide (s.chatter_name = e.chatter_name))).map (fun s => s.total_messages)).sum ∧
      e.template_messages = ((((perAccount.map get_chatter_performance).flatten).filter
          (fun s => decide (s.chatter_name = e.chatter_name))).map (fun s => s.template_messages)).sum ∧
      e.manual_messages = ((((perAccount.map get_chatter_performance).flatten).filter
          (fun s => decide (s.chatter_name = e.chatter_name))).map (fun s => s.manual_messages)).sum ∧
      e.avg_response_time_seconds = ((((perAccount.map get_chatter_performance).flatten).filter
          (fun s => decide (s.chatter_name = e.chatter_name))).map
            (fun s => s.avg_response_time_seconds)).sum /
        ((((perAccount.map get_chatter_performance).flatten).filter
          (fun s => decide (s.chatter_name = e.chatter_name))).length : ℚ) ∧
      e.ppv_conversion_rate = ((((perAccount.map get_chatter_performance).flatten).filter
          (fun s => decide (s.chatter_name = e.chatter_name))).map
            (fun s => s.ppv_conversion_rate)).sum /
        ((((perAccount.map get_chatter_performance).flatten).filter
          (fun s => decide (s.chatter_name = e.chatter_name))).length : ℚ)) ∧
    (∀ q : ℚ, List.Sublist ((((chatter_report_pipeline perAccount).filter
        (fun s => decide (s.total_sales = q))).map (fun s => s.chatter_name)))
      (firstOccurs (((perAccount.map get_chatter_performance).flatten).map
        (fun s => s.chatter_name)))) := by
  obtain ⟨hkeys, hentries⟩ := combineChatters_spec ((perAccount.map get_chatter_performance).flatten)
  have hperm := List.mergeSort_perm
    ((combineChatters ((perAccount.map get_chatter_performance).flatten)).map
      (fun p => finalizeEntry p.1 p.2)) salesDescLe
  have hfin : (((combineChatters ((perAccount.map get_chatter_performance).flatten)).map
      (fun p => finalizeEntry p.1 p.2)).map (fun s => s.chatter_name))
      = (combineChatters ((perAccount.map get_chatter_performance).flatten)).map Prod.fst := by
    rw [List.map_map]
    rfl
  refine ⟨?_, ?_, ?_, ?_, ?_⟩
  · -- per-account filter applied before the merge
    intro s hs
    rcases List.mem_flatten.mp hs with ⟨sub, hsub, hmem⟩
    rcases List.mem_map.mp hsub with ⟨parsed, _, hps⟩
    rw [← hps] at hmem
    unfold get_chatter_performance at hmem
    have hmem' := (List.mergeSort_perm _ salesDescLe).mem_iff.mp hmem
    have := (List.mem_filter.mp hmem').2
    simpa using this
  · -- sorted descending by total sales
    have hsorted := List.sorted_mergeSort salesDescLe_trans salesDescLe_total
      ((combineChatters ((perAccount.map get_chatter_performance).flatten)).map
        (fun p => finalizeEntry p.1 p.2))
    refine List.Pairwise.imp ?_ hsorted
    intro a b h
    simpa [salesDescLe] using h
  · -- one entry per distinct name, in some order
    have h1 : ((chatter_report_pipeline perAccount).map (fun s => s.chatter_name)).Perm
        (((combineChatters ((perAccount.map get_chatter_performance).flatten)).map
          (fun p => finalizeEntry p.1 p.2)).map (fun s => s.chatter_name)) :=
      hperm.map _
    rw [hfin, hkeys] at h1
    exact h1
  · -- grouped sums and unweighted means
    intro e he
    have he' : e ∈ (combineChatters ((perAccount.map get_chatter_performance).flatten)).map
        (fun p => finalizeEntry p.1 p.2) := hperm.mem_iff.mp he
    rcases List.mem_map.mp he' with ⟨p, hmem, heq⟩
    rcases p with ⟨n, ent⟩
    have hent := hentries n ent hmem
    have hname : e.chatter_name = n := by rw [← heq]; rfl
    rw [hname]
    constructor
    · have hn_in : n ∈ (combineChatters
          ((perAccount.map get_chatter_performance).flatten)).map Prod.fst :=
        List.mem_map.mpr ⟨(n, ent), hmem, rfl⟩
      rw [hkeys] at hn_in
      rcases List.mem_map.mp ((mem_firstOccurs _ _).mp hn_in) with ⟨x, hx, hxn⟩
      exact List.ne_nil_of_mem (List.mem_filter.mpr ⟨hx, by simp [hxn]⟩)
    · rw [← heq, hent, buildEntry_fields]
      refine ⟨rfl, rfl, rfl, rfl, ?_, ?_⟩
      · simp only [finalizeEntry, List.length_map]
      · simp only [finalizeEntry, List.length_map]
  · -- ties keep first-encounter order
    intro q
    have hstable := mergeSort_filter_sales
      ((combineChatters ((perAccount.map get_chatter_performance).flatten)).map
        (fun p => finalizeEntry p.1 p.2)) q
    have h1 : chatter_report_pipeline perAccount
        = ((combineChatters ((perAccount.map get_chatter_performance).flatten)).map
          (fun p => finalizeEntry p.1 p.2)).mergeSort salesDescLe := rfl
    rw [h1, hstable]
    have hfs : List.Sublist
        (((combineChatters ((perAccount.map get_chatter_performance).flatten)).map
          (fun p => finalizeEntry p.1 p.2)).filter (fun x => decide (x.total_sales = q)))
        ((combineChatters ((perAccount.map get_chatter_performance).flatten)).map
          (fun p => finalizeEntry p.1 p.2)) :=
      List.filter_sublist _
    have h2 := List.Sublist.map (fun s : ChatterStats => s.chatter_name) hfs
    rw [hfin, hkeys] at h2
    exact h2

/-- C7 witness: the spec's own example — chatter "Marc" from two accounts
(sales 200, messages 80, response 100s, conversion 1; and sales 50, messages
60, response 60s, conversion 0) merges into one entry with sales 250, messages
140, response time 80s and conversion 1/2, and its sales field equals the sum
over the grouped records. -/
theorem chatter_aggregation_spec_witness :
    ChatterStats.mk "Marc" 250 80 (1/2) 140 30 110 ∈
      chatter_report_pipeline [[ChatterStats.mk "Marc" 200 100 1 80 10 70],
        [ChatterStats.mk "Marc" 50 60 0 60 20 40]] ∧
    (ChatterStats.mk "Marc" 250 80 (1/2) 140 30 110).total_sales
      = (((([[ChatterStats.mk "Marc" 200 100 1 80 10 70],
            [ChatterStats.mk "Marc" 50 60 0 60 20 40]].map get_chatter_performance).flatten).filter
          (fun s => decide (s.chatter_name
            = (ChatterStats.mk "Marc" 250 80 (1/2) 140 30 110).chatter_name))).map
            (fun s => s.total_sales)).sum := by
  have hpipe : chatter_report_pipeline
      [[ChatterStats.mk "Marc" 200 100 1 80 10 70], [ChatterStats.mk "Marc" 50 60 0 60 20 40]]
      = [ChatterStats.mk "Marc" 250 80 (1/2) 140 30 110] := by
    norm_num [chatter_report_pipeline, get_chatter_performance, merge_chatter_stats,
      combineChatters, updateAssocChatter, finalizeEntry, addStats, emptyEntry,
      MIN_MESSAGES_THRESHOLD, List.mergeSort, buildEntry]
  have hmem : ChatterStats.mk "Marc" 250 80 (1/2) 140 30 110 ∈
      chatter_report_pipeline [[ChatterStats.mk "Marc" 200 100 1 80 10 70],
        [ChatterStats.mk "Marc" 50 60 0 60 20 40]] := by
    rw [hpipe]
    exact List.mem_singleton.mpr rfl
  have h := (chatter_aggregation_spec [[ChatterStats.mk "Marc" 200 100 1 80 10 70],
    [ChatterStats.mk "Marc" 50 60 0 60 20 40]]).2.2.2.1 _ hmem
  exact ⟨hmem, h.2.1⟩
